import Mathlib

/-!
# Zelosify vendor openings: upload and submission workflow

A shallow embedding of the client code in
`src/components/UserDashboardPage/IT_VENDOR/Openings/OpeningDetails.jsx` and
`src/components/UserDashboardPage/IT_VENDOR/Openings/UploadModal.jsx`.

* JavaScript values are the inductive type `JSVal`.  A number is held as the text
  that `String(x)` yields for it, which decides the three things the two files do
  with a number (truthiness, `===` and interpolation into a URL); an array or an
  object carries the address of its heap object, which is what `===` compares.
* Property reads, `||`, `??`, `===` and template-literal conversion are the
  functions of the `JSVal` namespace.
* An `async` handler is a function from the state it starts in and the outcome of
  each `fetch` it awaits to the state it leaves and the effects it performed
  (requests, toasts, callback invocations).
* `JSON.parse` and the configured backend origin are parameters (`Env`).
-/

namespace Zelosify

/-! ## JavaScript values -/

/-- JavaScript values as they come out of `JSON.parse`, plus `undefined`.
* `num text` is the number whose decimal text, as `String(x)` and a template literal
  print it, is `text` (`"7"`, `"1.5"`, `"1e+21"`, `"NaN"`, `"Infinity"`); both zeros
  print as `"0"`.  Two numbers other than `NaN` are `===` exactly when these texts
  are equal.
* `arr address items` and `obj address fields` are the array and the object that live
  at `address` in the heap: two of them are `===` exactly when they are the same
  heap object.  The objects and arrays that the program builds itself (request
  payloads, `{}` and `[]` defaults) are never compared by it and carry address 0. -/
inductive JSVal where
  | undefined
  | null
  | bool (b : Bool)
  | num (text : String)
  | str (s : String)
  | arr (address : Nat) (items : List JSVal)
  | obj (address : Nat) (fields : List (String × JSVal))

namespace JSVal

mutual
/-- Whether two values of the embedding are the same: equal primitives, or arrays or
objects with the same address and the same content. -/
def same : JSVal → JSVal → Bool
  | .undefined, .undefined => true
  | .null, .null => true
  | .bool a, .bool b => a == b
  | .num a, .num b => a == b
  | .str a, .str b => a == b
  | .arr a xs, .arr b ys => a == b && sameItems xs ys
  | .obj a xs, .obj b ys => a == b && sameFields xs ys
  | _, _ => false
/-- The comparison `same`, element by element. -/
def sameItems : List JSVal → List JSVal → Bool
  | [], [] => true
  | x :: xs, y :: ys => same x y && sameItems xs ys
  | _, _ => false
/-- The comparison `same`, property by property. -/
def sameFields : List (String × JSVal) → List (String × JSVal) → Bool
  | [], [] => true
  | (k, x) :: xs, (l, y) :: ys => k == l && same x y && sameFields xs ys
  | _, _ => false
end

mutual
theorem same_iff : ∀ (a b : JSVal), same a b = true ↔ a = b
  | .undefined, b => by cases b <;> simp [same]
  | .null, b => by cases b <;> simp [same]
  | .bool _, b => by cases b <;> simp [same]
  | .num _, b => by cases b <;> simp [same]
  | .str _, b => by cases b <;> simp [same]
  | .arr _ xs, b => by
      cases b <;> simp [same]
      intro _
      exact sameItems_iff xs _
  | .obj _ xs, b => by
      cases b <;> simp [same]
      intro _
      exact sameFields_iff xs _
theorem sameItems_iff : ∀ (xs ys : List JSVal), sameItems xs ys = true ↔ xs = ys
  | [], ys => by cases ys <;> simp [sameItems]
  | x :: xs, ys => by
      cases ys with
      | nil => simp [sameItems]
      | cons y ys => simp [sameItems, same_iff x y, sameItems_iff xs ys]
theorem sameFields_iff :
    ∀ (xs ys : List (String × JSVal)), sameFields xs ys = true ↔ xs = ys
  | [], ys => by cases ys <;> simp [sameFields]
  | (k, x) :: xs, ys => by
      cases ys with
      | nil => simp [sameFields]
      | cons y ys =>
        obtain ⟨l, y⟩ := y
        simp [sameFields, same_iff x y, sameFields_iff xs ys, and_assoc]
end

instance : DecidableEq JSVal :=
  fun a b => decidable_of_iff (same a b = true) (same_iff a b)

/-- The test `a === b`: primitives compare by value (`NaN` is not equal to itself),
arrays and objects by the identity of the heap object. -/
def strictEq : JSVal → JSVal → Bool
  | .undefined, .undefined => true
  | .null, .null => true
  | .bool a, .bool b => a == b
  | .num a, .num b => a == b && a != "NaN"
  | .str a, .str b => a == b
  | .arr a _, .arr b _ => a == b
  | .obj a _, .obj b _ => a == b
  | _, _ => false

/-- The conversion to boolean used by `!x`, `x || y`, `x ? a : b` and `if (x)`. -/
def truthy : JSVal → Bool
  | .undefined => false
  | .null => false
  | .bool b => b
  | .num text => text != "0" && text != "NaN"
  | .str s => s != ""
  | .arr _ _ => true
  | .obj _ _ => true

/-- Whether the value is `null` or `undefined`. -/
def isNullish : JSVal → Bool
  | .undefined => true
  | .null => true
  | _ => false

/-- The expression `a || b`. -/
def or (a b : JSVal) : JSVal := if a.truthy then a else b

/-- The expression `a ?? b`. -/
def coalesce (a b : JSVal) : JSVal := if a.isNullish then b else a

/-- The value stored under `key` in a property list, `undefined` when absent. -/
def lookup : List (String × JSVal) → String → JSVal
  | [], _ => .undefined
  | (k, v) :: rest, key => if k = key then v else lookup rest key

/-- The value of `v.key` for a `v` that is neither `null` nor `undefined`.  The keys
the program reads (`id`, `fileName`, `filename`, `s3Key`, `isDraft`, `data`,
`status`, `profiles`) are not defined on the built-in prototypes, so the read
yields `undefined` on every value that is not an object holding the key. -/
def field (v : JSVal) (key : String) : JSVal :=
  match v with
  | .obj _ fields => lookup fields key
  | _ => .undefined

end JSVal

/-- What a `try` block can catch: an `Error` built by the program (or the rejection
of `fetch`) with its message, or a `TypeError` raised by the engine. -/
inductive Thrown where
  | error (message : String)
  | typeError
  deriving DecidableEq

deriving instance DecidableEq for Except

/-- The text of `err.message`.  The wording of an engine `TypeError` is
implementation defined and never empty; one fixed text stands for it. -/
def Thrown.message : Thrown → String
  | .error m => m
  | .typeError => "TypeError"

/-- The expression `a || b` on a string `a`. -/
def strOr (a b : String) : String := if a = "" then b else a

namespace JSVal

/-- The property read `v.key`, which throws on `null` and `undefined`. -/
def get (v : JSVal) (key : String) : Except Thrown JSVal :=
  if v.isNullish then .error .typeError else .ok (v.field key)

/-- The optional read `v?.key`. -/
def getOpt (v : JSVal) (key : String) : JSVal :=
  if v.isNullish then .undefined else v.field key

mutual
/-- The string a template literal interpolates for a value. -/
def toStr : JSVal → String
  | .undefined => "undefined"
  | .null => "null"
  | .bool b => if b then "true" else "false"
  | .num text => text
  | .str s => s
  | .arr _ items => joinItems items
  | .obj _ _ => "[object Object]"
/-- The comma-joined elements of an array, `null` and `undefined` printing as
nothing. -/
def joinItems : List JSVal → String
  | [] => ""
  | x :: rest =>
    (match x with
      | .undefined => ""
      | .null => ""
      | y => toStr y) ++
    (match rest with
      | [] => ""
      | _ :: _ => "," ++ joinItems rest)
end

end JSVal

/-! ## Strings: `split("/")` and `pop()` -/

/-- The pieces of a character sequence between occurrences of `sep`, as
`String.prototype.split` yields them for a one-character separator: an empty input
gives one empty piece, and a trailing separator gives a trailing empty piece. -/
def splitChars (sep : Char) : List Char → List (List Char)
  | [] => [[]]
  | c :: cs =>
    if c = sep then [] :: splitChars sep cs
    else
      match splitChars sep cs with
      | [] => [[c]]
      | seg :: rest => (c :: seg) :: rest

/-- The array `s.split("/")`. -/
def jsSplitSlash (s : String) : List String :=
  (splitChars '/' s.data).map String.mk

/-- The expression `v.split("/").pop()`: the last piece for a string, a `TypeError`
for every other value (which has no callable `split`). -/
def splitPop (v : JSVal) : Except Thrown JSVal :=
  match v with
  | .str s =>
    match (jsSplitSlash s).getLast? with
    | some seg => .ok (.str seg)
    | none => .ok .undefined
  | _ => .error .typeError

/-! ## HTTP -/

/-- A response as the program observes it: the `ok` flag, the status code and the
body text that `res.text()` resolves to. -/
structure Response where
  ok : Bool
  status : Nat
  body : String
  deriving DecidableEq

/-- The outcome of one awaited `fetch`: a response, or a rejection (transport
failure) carrying the message of the rejection. -/
abbrev FetchResult := Except String Response

/-- Whether an awaited `fetch` produced a response whose `ok` flag is set. -/
def FetchResult.succeeded : FetchResult → Bool
  | .ok res => res.ok
  | .error _ => false

/-- A file staged in the upload modal. -/
structure StagedFile where
  name : String
  bytes : List Nat
  deriving DecidableEq

/-- The body of a request: none, a `FormData` with the fields `file` and `filename`,
or `JSON.stringify(payload)`, held as the value `payload` that is serialized. -/
inductive Body where
  | none
  | form (file : StagedFile) (filename : String)
  | json (payload : JSVal)
  deriving DecidableEq

/-- One call of `fetch`; every call of the program passes `credentials: "include"`. -/
structure Request where
  method : String
  url : String
  jsonContentType : Bool
  body : Body
  deriving DecidableEq

/-- What the program takes from its environment: the configured backend origin and
`JSON.parse` (`none` when it throws). -/
structure Env where
  apiBase : String
  jsonParse : String → Option JSVal

/-- The record `parseResponse` returns. -/
structure Parsed where
  ok : Bool
  status : Nat
  data : JSVal
  text : String
  deriving DecidableEq

/-! ## Profiles -/

/-- The object a profile normalizer builds: the four canonical properties, and the
`__raw` property that only the upload modal adds. -/
structure Profile where
  id : JSVal
  filename : JSVal
  s3Key : JSVal
  isDraft : JSVal
  raw : Option JSVal
  deriving DecidableEq

/-- The profile as a JavaScript object, properties in the order of the literal. -/
def Profile.toJS (p : Profile) : JSVal :=
  .obj 0 ([("id", p.id), ("filename", p.filename), ("s3Key", p.s3Key),
         ("isDraft", p.isDraft)] ++
        (match p.raw with
          | some r => [("__raw", r)]
          | none => []))

/-- The filename expression
`p.fileName || p.filename || (p.s3Key ? p.s3Key.split("/").pop() : "")`,
the same text at the three normalizer sites. -/
def profileFilename (p : JSVal) : Except Thrown JSVal := do
  let a ← p.get "fileName"
  if a.truthy then pure a
  else
    let b ← p.get "filename"
    if b.truthy then pure b
    else
      let k ← p.get "s3Key"
      if k.truthy then splitPop k else pure (.str "")

/-- The call `xs.map(f)` on a value: defined on arrays, a `TypeError` otherwise. -/
def mapArray (f : JSVal → Except Thrown Profile) (xs : JSVal) :
    Except Thrown (List Profile) :=
  match xs with
  | .arr _ items => items.mapM f
  | _ => .error .typeError

/-! ## `UploadModal.jsx` -/

namespace UploadModal

/-- The helper `parseResponse` of `UploadModal.jsx`: read the body text, try
`JSON.parse`, and fall back to `data: null` when it throws. -/
def parseResponse (env : Env) (res : Response) : Parsed :=
  let text := res.body
  match env.jsonParse text with
  | some data => { ok := res.ok, status := res.status, data := data, text := text }
  | none => { ok := res.ok, status := res.status, data := .null, text := text }

/-- The mapping `(p) => (...)` that builds `normalizedForParent` in `uploadFiles`. -/
def normalizeForParent (p : JSVal) : Except Thrown Profile := do
  let id ← p.get "id"
  let filename ← profileFilename p
  let s3Key ← p.get "s3Key"
  let isDraft ← p.get "isDraft"
  pure { id := id, filename := filename, s3Key := s3Key.or .null,
         isDraft := isDraft.coalesce (.bool false), raw := some p }

/-- The component state of the modal. -/
structure ModalState where
  files : List StagedFile
  isSavingDraft : Bool
  isUploadingFinal : Bool
  isDragging : Bool
  deriving DecidableEq

/-- What one run of `uploadFiles` leaves behind: the component state, the requests
it issued in order, the arguments of each `onUploaded` call, whether
`setTimeout(() => onClose(), 0)` was reached, and the texts passed to `alert`. -/
structure UploadRun where
  state : ModalState
  requests : List Request
  uploaded : List (List Profile)
  closeScheduled : Bool
  alerts : List String
  deriving DecidableEq

/-- The presign request of one staged file. -/
def presignRequest (env : Env) (openingId : JSVal) (file : StagedFile) : Request :=
  { method := "POST",
    url := env.apiBase ++ "/vendor/openings/" ++ openingId.toStr ++ "/profiles/presign",
    jsonContentType := false,
    body := .form file file.name }

/-- The request that persists the collected profiles under `endpoint`. -/
def saveRequest (env : Env) (openingId : JSVal) (endpoint : String)
    (uploadedProfiles : List JSVal) : Request :=
  { method := "POST",
    url := env.apiBase ++ "/vendor/openings/" ++ openingId.toStr ++ "/profiles/" ++ endpoint,
    jsonContentType := true,
    body := .json (.obj 0 [("profiles", .arr 0 uploadedProfiles)]) }

/-- The entry pushed for one successful presign:
`const { filename, s3Key } = uploadParsed.data?.data || uploadParsed.data || {}`
followed by `uploadedProfiles.push({ filename, s3Key })`. -/
def presignEntry (parsed : Parsed) : JSVal :=
  let src := ((parsed.data.getOpt "data").or parsed.data).or (.obj 0 [])
  .obj 0 [("filename", src.field "filename"), ("s3Key", src.field "s3Key")]

/-- The entry the loop collects from the outcome of one presign `fetch` (defined for
an outcome that is a response). -/
def presignEntryOf (env : Env) (outcome : FetchResult) : JSVal :=
  match outcome with
  | .ok uploadRes => presignEntry (parseResponse env uploadRes)
  | .error _ => .undefined

/-- The `for (const file of files)` loop of `uploadFiles`.  `net i` is the outcome of
the i-th `fetch` of the run, `i` the number of fetches already made,
`uploadedProfiles` and `requests` what has been collected so far.  The result is
the requests issued and either what was thrown or the collected entries. -/
def presignLoop (env : Env) (openingId : JSVal) (net : Nat → FetchResult) :
    List StagedFile → Nat → List JSVal → List Request →
    List Request × Except Thrown (List JSVal)
  | [], _, uploadedProfiles, requests => (requests, .ok uploadedProfiles)
  | file :: rest, i, uploadedProfiles, requests =>
    let requests := requests ++ [presignRequest env openingId file]
    match net i with
    | .error m => (requests, .error (.error m))
    | .ok uploadRes =>
      let uploadParsed := parseResponse env uploadRes
      if !uploadParsed.ok then
        (requests, .error (.error (strOr uploadParsed.text "Presign failed")))
      else
        presignLoop env openingId net rest (i + 1)
          (uploadedProfiles ++ [presignEntry uploadParsed]) requests

/-- The array `rawArr` of `uploadFiles`:
`Array.isArray(raw) ? raw : raw ? [raw] : []` for
`raw = saveParsed.data?.data || saveParsed.data`. -/
def rawArr (saveParsed : Parsed) : List JSVal :=
  let raw := (saveParsed.data.getOpt "data").or saveParsed.data
  match raw with
  | .arr _ items => items
  | _ => if raw.truthy then [raw] else []

/-- The `catch` and `finally` blocks of `uploadFiles`: alert the message, keep the
staged files, clear both in-flight flags. -/
def uploadFailed (st : ModalState) (requests : List Request) (err : Thrown) : UploadRun :=
  { state := { st with isSavingDraft := false, isUploadingFinal := false },
    requests := requests,
    uploaded := [],
    closeScheduled := false,
    alerts := [strOr err.message "Upload failed"] }

/-- The handler `uploadFiles(endpoint)`, started in state `st` with the prop
`openingId`; `net i` is the outcome of the i-th awaited `fetch` of the run. -/
def uploadFiles (env : Env) (openingId : JSVal) (endpoint : String)
    (net : Nat → FetchResult) (st : ModalState) : UploadRun :=
  if !openingId.truthy || st.files.length == 0 then
    { state := st, requests := [], uploaded := [], closeScheduled := false, alerts := [] }
  else
    let st1 : ModalState :=
      if endpoint = "uploadasdraft" then { st with isSavingDraft := true }
      else { st with isUploadingFinal := true }
    match presignLoop env openingId net st.files 0 [] [] with
    | (requests, .error err) => uploadFailed st1 requests err
    | (requests, .ok uploadedProfiles) =>
      let requests := requests ++ [saveRequest env openingId endpoint uploadedProfiles]
      match net st.files.length with
      | .error m => uploadFailed st1 requests (.error m)
      | .ok saveRes =>
        let saveParsed := parseResponse env saveRes
        if !saveParsed.ok then
          uploadFailed st1 requests (.error (strOr saveParsed.text "Save profiles failed"))
        else
          match (rawArr saveParsed).mapM normalizeForParent with
          | .error err => uploadFailed st1 requests err
          | .ok normalizedForParent =>
            { state := { st1 with files := [], isSavingDraft := false,
                                  isUploadingFinal := false },
              requests := requests,
              uploaded := [normalizedForParent],
              closeScheduled := true,
              alerts := [] }

end UploadModal

/-! ## `OpeningDetails.jsx` -/

namespace OpeningDetails

/-- The helper `parseResponse` of `OpeningDetails.jsx`. -/
def parseResponse (env : Env) (res : Response) : Parsed :=
  let text := res.body
  match env.jsonParse text with
  | some data => { ok := res.ok, status := res.status, data := data, text := text }
  | none => { ok := res.ok, status := res.status, data := .null, text := text }

/-- The mapping `(p) => (...)` applied to `data.profiles` in `fetchOpeningOnce` and,
with the same text, in `fetchOpeningFull`. -/
def normalizeProfile (p : JSVal) : Except Thrown Profile := do
  let id ← p.get "id"
  let filename ← profileFilename p
  let s3Key ← p.get "s3Key"
  let isDraft ← p.get "isDraft"
  pure { id := id, filename := filename, s3Key := s3Key.or .null,
         isDraft := isDraft.coalesce (.bool false), raw := none }

/-- The component state of the detail view; `hasUploadModalOpened` is the ref. -/
structure ViewState where
  opening : JSVal
  loading : Bool
  isUploadOpen : Bool
  uploadedFiles : List Profile
  status : JSVal
  error : Option String
  isSaving : Bool
  hasUploadModalOpened : Bool
  deriving DecidableEq

/-- What one handler run leaves behind: the component state, the requests issued in
order, the texts passed to `toast.error`, and the URLs given to `window.open`. -/
structure Outcome where
  state : ViewState
  requests : List Request
  toasts : List String
  windows : List JSVal
  deriving DecidableEq

/-- The request `GET /vendor/openings/:id`. -/
def openingRequest (env : Env) (id : JSVal) : Request :=
  { method := "GET",
    url := env.apiBase ++ "/vendor/openings/" ++ id.toStr,
    jsonContentType := false,
    body := .none }

/-- The body of the `try` block shared by `fetchOpeningOnce` and `fetchOpeningFull`,
from the awaited `fetch` on: the state reached and what was thrown, if anything.
`setOpening` and `setStatus` take effect before a later statement throws. -/
def applyOpeningResponse (env : Env) (net : FetchResult) (st : ViewState) :
    ViewState × Option Thrown :=
  match net with
  | .error m => (st, some (.error m))
  | .ok res =>
    let parsed := parseResponse env res
    if !parsed.ok then (st, some (.error (strOr parsed.text "Failed to fetch")))
    else
      let data := parsed.data
      let st2 := { st with opening := data }
      match data.get "status" with
      | .error err => (st2, some err)
      | .ok status =>
        let st3 := { st2 with status := status.or (.str "PENDING") }
        match mapArray normalizeProfile ((data.field "profiles").or (.arr 0 [])) with
        | .error err => (st3, some err)
        | .ok profiles => ({ st3 with uploadedFiles := profiles }, none)

/-- The function `fetchOpeningFull`, run to completion from state `st` with route
parameter `id`; `net` is the outcome of its one `fetch`. -/
def fetchOpeningFull (env : Env) (id : JSVal) (net : FetchResult) (st : ViewState) :
    Outcome :=
  if !id.truthy then { state := st, requests := [], toasts := [], windows := [] }
  else
    let st1 := { st with loading := true, error := none }
    match applyOpeningResponse env net st1 with
    | (st2, some err) =>
      { state := { st2 with loading := false },
        requests := [openingRequest env id],
        toasts := [strOr err.message "Failed to sync opening"],
        windows := [] }
    | (st2, none) =>
      { state := { st2 with loading := false },
        requests := [openingRequest env id],
        toasts := [],
        windows := [] }

/-- The callback `handleUploaded(newProfiles)`, with the re-fetch it may start run to
completion. -/
def handleUploaded (env : Env) (id : JSVal) (net : FetchResult) (st : ViewState)
    (newProfiles : List Profile) : Outcome :=
  if st.hasUploadModalOpened then fetchOpeningFull env id net st
  else
    { state := { st with uploadedFiles := st.uploadedFiles ++ newProfiles },
      requests := [], toasts := [], windows := [] }

/-- The request `POST /vendor/openings/:id/profiles/delete/:profileId`. -/
def deleteRequest (env : Env) (id : JSVal) (profileId : JSVal) : Request :=
  { method := "POST",
    url := env.apiBase ++ "/vendor/openings/" ++ id.toStr ++ "/profiles/delete/" ++
      profileId.toStr,
    jsonContentType := false,
    body := .none }

/-- The handler `handleDelete(file)`; `net` is the outcome of its `fetch`, if it
makes one. -/
def handleDelete (env : Env) (id : JSVal) (net : FetchResult) (st : ViewState)
    (file : Profile) : Outcome :=
  if JSVal.strictEq st.status (.str "SUBMITTED") then
    { state := st, requests := [],
      toasts := ["Profiles cannot be deleted after submission."], windows := [] }
  else if file.id.truthy then
    match net with
    | .error _ =>
      { state := st, requests := [deleteRequest env id file.id],
        toasts := ["Error deleting profile"], windows := [] }
    | .ok res =>
      let parsed := parseResponse env res
      if !parsed.ok then
        { state := st, requests := [deleteRequest env id file.id],
          toasts := ["Failed to delete profile: " ++ parsed.text], windows := [] }
      else
        { state := { st with uploadedFiles :=
                       st.uploadedFiles.filter (fun f => !JSVal.strictEq f.id file.id) },
          requests := [deleteRequest env id file.id], toasts := [], windows := [] }
  else
    { state := { st with uploadedFiles :=
                   st.uploadedFiles.filter (fun f =>
                     !JSVal.strictEq f.s3Key file.s3Key ||
                     !JSVal.strictEq f.filename file.filename) },
      requests := [], toasts := [], windows := [] }

/-- The request of `handleSubmit`: `POST /vendor/openings/:id/profiles/upload` with
the body `{ profiles: [file] }`. -/
def submitRequest (env : Env) (id : JSVal) (file : Profile) : Request :=
  { method := "POST",
    url := env.apiBase ++ "/vendor/openings/" ++ id.toStr ++ "/profiles/upload",
    jsonContentType := true,
    body := .json (.obj 0 [("profiles", .arr 0 [file.toJS])]) }

/-- The handler `handleSubmit(file)`; `none` is a missing (`null` or `undefined`)
argument, `net` the outcome of its one `fetch`. -/
def handleSubmit (env : Env) (id : JSVal) (net : FetchResult) (st : ViewState)
    (file : Option Profile) : Outcome :=
  match file with
  | none => { state := st, requests := [], toasts := [], windows := [] }
  | some file =>
    if !id.truthy then { state := st, requests := [], toasts := [], windows := [] }
    else
      let thrown : Option Thrown :=
        match net with
        | .error m => some (.error m)
        | .ok saveRes =>
          let parsed := parseResponse env saveRes
          if !parsed.ok then some (.error (strOr parsed.text "Submit failed")) else none
      match thrown with
      | some err =>
        { state := { st with isSaving := false },
          requests := [submitRequest env id file],
          toasts := [strOr err.message "Failed to submit"], windows := [] }
      | none =>
        { state := { st with
                     uploadedFiles := st.uploadedFiles.map (fun f =>
                       if JSVal.strictEq f.id file.id then { f with isDraft := .bool false }
                       else f),
                     isSaving := false },
          requests := [submitRequest env id file], toasts := [], windows := [] }

end OpeningDetails

/-! ## `OpeningDetails.jsx`: first fetch, preview, and the life of the view -/

namespace JSVal

mutual
/-- Whether the property name `key` occurs anywhere inside the value, at any depth. -/
def mentions (key : String) : JSVal → Bool
  | .arr _ items => mentionsItems key items
  | .obj _ fields => mentionsFields key fields
  | _ => false
/-- Whether `key` occurs inside one of the elements. -/
def mentionsItems (key : String) : List JSVal → Bool
  | [] => false
  | x :: rest => mentions key x || mentionsItems key rest
/-- Whether `key` names one of the properties or occurs inside one of their values. -/
def mentionsFields (key : String) : List (String × JSVal) → Bool
  | [] => false
  | (k, v) :: rest => k == key || mentions key v || mentionsFields key rest
end

/-- The element read `xs[0]` on an array. -/
def first (items : List JSVal) : JSVal :=
  match items with
  | [] => .undefined
  | x :: _ => x

end JSVal

namespace OpeningDetails

/-- The function `fetchOpeningOnce` of the mount effect, with the guard
`if (!id) return;` that precedes it; `net` is the outcome of its one `fetch`.  It
differs from `fetchOpeningFull` in its `catch` block only, which stores the message
in the `error` state instead of raising a toast. -/
def fetchOpeningOnce (env : Env) (id : JSVal) (net : FetchResult) (st : ViewState) :
    Outcome :=
  if !id.truthy then { state := st, requests := [], toasts := [], windows := [] }
  else
    let st1 := { st with loading := true, error := none }
    match applyOpeningResponse env net st1 with
    | (st2, some err) =>
      { state := { st2 with error := some (strOr err.message "Failed to load opening"),
                            loading := false },
        requests := [openingRequest env id],
        toasts := [],
        windows := [] }
    | (st2, none) =>
      { state := { st2 with loading := false },
        requests := [openingRequest env id],
        toasts := [],
        windows := [] }

/-- The request of `handleView`: `POST /vendor/openings/:id/profiles/view` with the
body `{ profiles: [{ s3Key, filename }] }`. -/
def viewRequest (env : Env) (id : JSVal) (file : Profile) : Request :=
  { method := "POST",
    url := env.apiBase ++ "/vendor/openings/" ++ id.toStr ++ "/profiles/view",
    jsonContentType := true,
    body := .json (.obj 0 [("profiles",
      .arr 0 [.obj 0 [("s3Key", file.s3Key), ("filename", file.filename)]])]) }

/-- The value `viewUrl` of `handleView`: with
`profiles = parsed.data?.data?.profiles || parsed.data?.data || parsed.data`, it is
`profiles[0]?.viewUrl` when `profiles` is an array and `profiles?.viewUrl`
otherwise. -/
def viewUrlOf (parsed : Parsed) : JSVal :=
  let profiles :=
    ((((parsed.data.getOpt "data").getOpt "profiles").or (parsed.data.getOpt "data")).or
      parsed.data)
  match profiles with
  | .arr _ items => (JSVal.first items).getOpt "viewUrl"
  | other => other.getOpt "viewUrl"

/-- The handler `handleView(file)`; `net` is the outcome of its `fetch`, if it makes
one.  The component state is not written. -/
def handleView (env : Env) (id : JSVal) (net : FetchResult) (st : ViewState)
    (file : Profile) : Outcome :=
  if !file.s3Key.truthy then
    { state := st, requests := [],
      toasts := ["Preview not available (missing s3Key)."], windows := [] }
  else
    match net with
    | .error _ =>
      { state := st, requests := [viewRequest env id file],
        toasts := ["Error generating preview"], windows := [] }
    | .ok res =>
      let parsed := parseResponse env res
      if !parsed.ok then
        { state := st, requests := [viewRequest env id file],
          toasts := ["Failed to get preview URL: " ++ parsed.text], windows := [] }
      else
        let viewUrl := viewUrlOf parsed
        if !viewUrl.truthy then
          { state := st, requests := [viewRequest env id file],
            toasts := ["Preview URL not returned by server."], windows := [] }
        else
          { state := st, requests := [viewRequest env id file], toasts := [],
            windows := [viewUrl] }

/-- The state of a freshly mounted `OpeningDetails`: the initial values of its
`useState` and `useRef` calls. -/
def initialState : ViewState :=
  { opening := .null, loading := true, isUploadOpen := false, uploadedFiles := [],
    status := .str "PENDING", error := none, isSaving := false,
    hasUploadModalOpened := false }

/-- A mounted detail view together with the number of `uploadFiles` runs that its
upload modal has started and that have not settled yet. -/
structure Session where
  view : ViewState
  uploadsInFlight : Nat
  deriving DecidableEq

/-- The session of a freshly mounted view. -/
def initialSession : Session := { view := initialState, uploadsInFlight := 0 }

/-- What can happen to a mounted view.  Each handler is taken as one step, from the
state it finds to the state it leaves. -/
inductive Event where
  | fetchOnce (id : JSVal) (net : FetchResult)
  | clickUpload
  | closeModal
  | startUpload
  | uploadSucceeded (id : JSVal) (net : FetchResult) (newProfiles : List Profile)
  | uploadFailed
  | delete (id : JSVal) (net : FetchResult) (file : Profile)
  | preview (id : JSVal) (net : FetchResult) (file : Profile)
  | submit (id : JSVal) (net : FetchResult) (file : Option Profile)

/-- One step of a mounted view; `none` when the event cannot happen in that state.
* `fetchOnce`: the mount effect runs `fetchOpeningOnce`.
* `clickUpload`: the upload button, `hasUploadModalOpened.current = true;
  setIsUploadOpen(true)`.
* `closeModal`: the `onClose` prop, `setIsUploadOpen(false)`.
* `startUpload`: a button of the modal starts `uploadFiles`; the modal exists only
  while `isUploadOpen` holds.
* `uploadSucceeded`: a started `uploadFiles` run reaches `onUploaded(...)`, which is
  `handleUploaded`; `uploadFailed`: it ends in its `catch` block instead.
* `delete`, `preview`, `submit`: the three row handlers.
The conditions under which the rows and the button are rendered are left out, so
every state the component can reach is reached here. -/
def step (env : Env) (event : Event) (s : Session) : Option Session :=
  match event with
  | .fetchOnce id net => some { s with view := (fetchOpeningOnce env id net s.view).state }
  | .clickUpload =>
    some { s with view := { s.view with hasUploadModalOpened := true, isUploadOpen := true } }
  | .closeModal => some { s with view := { s.view with isUploadOpen := false } }
  | .startUpload =>
    if s.view.isUploadOpen then some { s with uploadsInFlight := s.uploadsInFlight + 1 }
    else none
  | .uploadSucceeded id net newProfiles =>
    if 0 < s.uploadsInFlight then
      some { view := (handleUploaded env id net s.view newProfiles).state,
             uploadsInFlight := s.uploadsInFlight - 1 }
    else none
  | .uploadFailed =>
    if 0 < s.uploadsInFlight then some { s with uploadsInFlight := s.uploadsInFlight - 1 }
    else none
  | .delete id net file => some { s with view := (handleDelete env id net s.view file).state }
  | .preview id net file => some { s with view := (handleView env id net s.view file).state }
  | .submit id net file => some { s with view := (handleSubmit env id net s.view file).state }

/-- The session after a sequence of events, `none` when one of them cannot happen. -/
def run (env : Env) : List Event → Session → Option Session
  | [], s => some s
  | event :: rest, s =>
    match step env event s with
    | some next => run env rest next
    | none => none

end OpeningDetails

/-! ## `OpeningsLayout.jsx` -/

namespace OpeningsLayout

/-- A JavaScript number as the list view computes with it: a finite value (every
double is a rational; the two zeros are one value here, as they are for `===`), or
one of the three values that are not finite. -/
inductive JSNumber where
  | finite (value : Rat)
  | posInf
  | negInf
  | nan
  deriving DecidableEq

namespace JSNumber

/-- The test `a === b` on two numbers: equal values, and `NaN` equal to nothing. -/
def strictEq : JSNumber → JSNumber → Bool
  | .finite a, .finite b => a == b
  | .posInf, .posInf => true
  | .negInf, .negInf => true
  | _, _ => false

/-- The sum `a + b`.  `toNumber` is the rounding of the engine, which takes the exact
real result to the number nearest to it. -/
def add (toNumber : Rat → JSNumber) : JSNumber → JSNumber → JSNumber
  | .finite a, .finite b => toNumber (a + b)
  | .nan, _ => .nan
  | _, .nan => .nan
  | .posInf, .negInf => .nan
  | .negInf, .posInf => .nan
  | .posInf, _ => .posInf
  | _, .posInf => .posInf
  | .negInf, _ => .negInf
  | _, .negInf => .negInf

/-- The difference `a - b`, rounded by `toNumber` like the sum. -/
def sub (toNumber : Rat → JSNumber) : JSNumber → JSNumber → JSNumber
  | .finite a, .finite b => toNumber (a - b)
  | .nan, _ => .nan
  | _, .nan => .nan
  | .posInf, .posInf => .nan
  | .negInf, .negInf => .nan
  | .posInf, _ => .posInf
  | _, .negInf => .posInf
  | .negInf, _ => .negInf
  | _, .posInf => .negInf

end JSNumber

/-- The four numbers of the `pagination` record of the list response, stored as
received: nothing checks that they are integers. -/
structure Pagination where
  currentPage : JSNumber
  itemsPerPage : JSNumber
  totalItems : JSNumber
  totalPages : JSNumber
  deriving DecidableEq

/-- One of the pagination buttons: its caption, its `disabled` attribute and the
page its `onClick` passes to `fetchOpenings`. -/
structure PageButton where
  label : String
  disabled : Bool
  page : JSNumber
  deriving DecidableEq

/-- The three buttons rendered when `pagination` is set, in document order. -/
def paginationButtons (toNumber : Rat → JSNumber) (pagination : Pagination) :
    List PageButton :=
  [ { label := "Go Back",
      disabled := pagination.currentPage.strictEq (.finite 1),
      page := .finite 1 },
    { label := "Prev",
      disabled := pagination.currentPage.strictEq (.finite 1),
      page := pagination.currentPage.sub toNumber (.finite 1) },
    { label := "Next",
      disabled := pagination.currentPage.strictEq pagination.totalPages ||
        pagination.totalPages.strictEq (.finite 0),
      page := pagination.currentPage.add toNumber (.finite 1) } ]

/-- The buttons of the view: none while `pagination` is `null`. -/
def controls (toNumber : Rat → JSNumber) (pagination : Option Pagination) :
    List PageButton :=
  match pagination with
  | some p => paginationButtons toNumber p
  | none => []

/-- The page a click on the button requests: a disabled button does not fire. -/
def click (button : PageButton) : Option JSNumber :=
  if button.disabled then none else some button.page

/-- A rounding that leaves every real as it is.  It agrees with the rounding of the
engine on every real that is a number already, and stands for it in scenarios
whose exact results are numbers. -/
def exactNumber (q : Rat) : JSNumber := .finite q

end OpeningsLayout

/-! ## Scenario data -/

/-- A decoder that knows the texts of a table and rejects every other text; it
stands for `JSON.parse` on the bodies of a concrete scenario. -/
def tableDecoder (table : List (String × JSVal)) (text : String) : Option JSVal :=
  (table.find? (fun entry => entry.1 == text)).map (fun entry => entry.2)

/-! ## The response parser -/

/-- C1: for every response (flag `ok`, code `status`, body text `body`) both copies
of `parseResponse` return the same record; its `ok`, `status` and `text` are those
of the response, its `data` is the decoded value when `JSON.parse` accepts the body
and `null` when `JSON.parse` throws.  The function is total: a record is returned
for every body. -/
theorem parseResponse_contract (env : Env) (res : Response) :
    OpeningDetails.parseResponse env res = UploadModal.parseResponse env res ∧
    (OpeningDetails.parseResponse env res).ok = res.ok ∧
    (OpeningDetails.parseResponse env res).status = res.status ∧
    (OpeningDetails.parseResponse env res).text = res.body ∧
    (∀ v, env.jsonParse res.body = some v →
      (OpeningDetails.parseResponse env res).data = v) ∧
    (env.jsonParse res.body = none →
      (OpeningDetails.parseResponse env res).data = .null) := by
  unfold OpeningDetails.parseResponse UploadModal.parseResponse
  cases h : env.jsonParse res.body <;> simp [h]

/-- Witness of C1: a decodable body and an undecodable one. -/
theorem parseResponse_contract_witness :
    (OpeningDetails.parseResponse
        ⟨"", tableDecoder [("[7]", .arr 1 [.num "7"])]⟩ ⟨true, 200, "[7]"⟩).data
      = .arr 1 [.num "7"] ∧
    (UploadModal.parseResponse
        ⟨"", tableDecoder [("[7]", .arr 1 [.num "7"])]⟩ ⟨false, 502, "Bad Gateway"⟩)
      = ⟨false, 502, .null, "Bad Gateway"⟩ := by
  have h1 := parseResponse_contract ⟨"", tableDecoder [("[7]", .arr 1 [.num "7"])]⟩
    ⟨true, 200, "[7]"⟩
  have h2 := parseResponse_contract ⟨"", tableDecoder [("[7]", .arr 1 [.num "7"])]⟩
    ⟨false, 502, "Bad Gateway"⟩
  refine ⟨h1.2.2.2.2.1 _ (by decide), ?_⟩
  rw [← h2.1]
  have hd := h2.2.2.2.2.2 (by decide)
  have ho := h2.2.1
  have hs := h2.2.2.1
  have ht := h2.2.2.2.1
  generalize OpeningDetails.parseResponse _ _ = r at hd ho hs ht
  cases r
  simp_all

/-! ## The profile normalizers -/

theorem get_of_not_nullish (p : JSVal) (key : String) (h : p.isNullish = false) :
    p.get key = .ok (p.field key) := by
  simp [JSVal.get, h]

theorem get_of_nullish (p : JSVal) (key : String) (h : p.isNullish = true) :
    p.get key = .error .typeError := by
  simp [JSVal.get, h]

theorem toJS_not_nullish (q : Profile) : q.toJS.isNullish = false := rfl

theorem toJS_fields (q : Profile) :
    q.toJS.field "id" = q.id ∧ q.toJS.field "fileName" = .undefined ∧
    q.toJS.field "filename" = q.filename ∧ q.toJS.field "s3Key" = q.s3Key ∧
    q.toJS.field "isDraft" = q.isDraft := by
  cases h : q.raw <;> simp [Profile.toJS, JSVal.field, JSVal.lookup, h]

theorem or_null_truthy (k : JSVal) : (k.or .null).truthy = k.truthy := by
  unfold JSVal.or
  split <;> simp_all [JSVal.truthy]

theorem or_null_idem (k : JSVal) : (k.or .null).or .null = k.or .null := by
  unfold JSVal.or
  split <;> simp_all [JSVal.truthy]

theorem splitPop_or_null (k : JSVal) (h : k.truthy = true) : splitPop (k.or .null) = splitPop k := by
  simp [JSVal.or, h]

theorem coalesce_idem (d : JSVal) :
    (d.coalesce (.bool false)).coalesce (.bool false) = d.coalesce (.bool false) := by
  unfold JSVal.coalesce
  split <;> simp_all [JSVal.isNullish]

/-- The filename expression over the three properties it reads. -/
theorem profileFilename_eq (p : JSVal) (h : p.isNullish = false) :
    profileFilename p =
      if (p.field "fileName").truthy then .ok (p.field "fileName")
      else if (p.field "filename").truthy then .ok (p.field "filename")
      else if (p.field "s3Key").truthy then splitPop (p.field "s3Key")
      else .ok (.str "") := by
  simp only [profileFilename, get_of_not_nullish _ _ h, bind, Except.bind, pure, Except.pure]

theorem profileFilename_idem (p : JSVal) (fn : JSVal) (raw : Option JSVal) (d : JSVal)
    (h : p.isNullish = false) (hfn : profileFilename p = .ok fn) :
    profileFilename (Profile.toJS ⟨p.field "id", fn, (p.field "s3Key").or .null, d, raw⟩)
      = .ok fn := by
  rw [profileFilename_eq _ (toJS_not_nullish _)]
  rw [profileFilename_eq _ h] at hfn
  obtain ⟨-, h2, h3, h4, -⟩ := toJS_fields ⟨p.field "id", fn, (p.field "s3Key").or .null, d, raw⟩
  rw [h2, h3, h4]
  simp only [show JSVal.undefined.truthy = false from rfl, or_null_truthy,
    Bool.false_eq_true, if_false]
  by_cases hf : fn.truthy = true
  · simp [hf]
  · simp only [hf, if_false]
    split_ifs at hfn with ha hb hk
    · simp_all
    · simp_all
    · simp [hk, splitPop_or_null _ hk, hfn]
    · simp [hk]
      simpa using hfn

theorem normalizeProfile_eq (p : JSVal) (h : p.isNullish = false) :
    OpeningDetails.normalizeProfile p =
      (profileFilename p).bind (fun fn => .ok
        ⟨p.field "id", fn, (p.field "s3Key").or .null,
          (p.field "isDraft").coalesce (.bool false), none⟩) := by
  simp only [OpeningDetails.normalizeProfile, get_of_not_nullish _ _ h, bind, Except.bind,
    pure, Except.pure]

theorem normalizeForParent_eq (p : JSVal) (h : p.isNullish = false) :
    UploadModal.normalizeForParent p =
      (profileFilename p).bind (fun fn => .ok
        ⟨p.field "id", fn, (p.field "s3Key").or .null,
          (p.field "isDraft").coalesce (.bool false), some p⟩) := by
  simp only [UploadModal.normalizeForParent, get_of_not_nullish _ _ h, bind, Except.bind,
    pure, Except.pure]

/-- C2 (amended): the normalizer of `OpeningDetails.jsx` is idempotent: applied to
its own output object it returns that output again (and it throws on the input
exactly when the first application throws).  The normalizer of `UploadModal.jsx`
reproduces `id`, `filename`, `s3Key` and `isDraft` when applied to its own output,
while its `__raw` property then holds that output object instead of the original
argument. -/
theorem normalizer_twice (x : JSVal) :
    ((OpeningDetails.normalizeProfile x).bind
        (fun q => OpeningDetails.normalizeProfile q.toJS)
      = OpeningDetails.normalizeProfile x) ∧
    ((UploadModal.normalizeForParent x).bind
        (fun q => UploadModal.normalizeForParent q.toJS)
      = (UploadModal.normalizeForParent x).map
          (fun q => { q with raw := some q.toJS })) := by
  cases hx : x.isNullish
  · rw [normalizeProfile_eq x hx, normalizeForParent_eq x hx]
    cases hfn : profileFilename x with
    | error e => exact ⟨rfl, rfl⟩
    | ok fn =>
      constructor
      · simp only [Except.bind]
        rw [normalizeProfile_eq _ (toJS_not_nullish _),
          profileFilename_idem x fn none _ hx hfn]
        obtain ⟨h1, -, -, h4, h5⟩ := toJS_fields ⟨x.field "id", fn,
          (x.field "s3Key").or .null, (x.field "isDraft").coalesce (.bool false), none⟩
        simp only [Except.bind, h1, h4, h5, or_null_idem, coalesce_idem]
      · simp only [Except.bind, Except.map]
        rw [normalizeForParent_eq _ (toJS_not_nullish _),
          profileFilename_idem x fn (some x) _ hx hfn]
        obtain ⟨h1, -, -, h4, h5⟩ := toJS_fields ⟨x.field "id", fn,
          (x.field "s3Key").or .null, (x.field "isDraft").coalesce (.bool false), some x⟩
        simp only [Except.bind, h1, h4, h5, or_null_idem, coalesce_idem]
  · simp [OpeningDetails.normalizeProfile, UploadModal.normalizeForParent,
      get_of_nullish _ _ hx, bind, Except.bind, Except.map]

/-- C2 as stated fails for the normalizer of `UploadModal.uploadFiles`: on the empty
object `x`, `normalize(normalize(x))` differs from `normalize(x)`, because the
`__raw` property of the former is `normalize(x)` and that of the latter is `x`. -/
theorem normalizeForParent_not_idempotent :
    (UploadModal.normalizeForParent (.obj 1 [])
        = .ok ⟨.undefined, .str "", .null, .bool false, some (.obj 1 [])⟩) ∧
    ((UploadModal.normalizeForParent (.obj 1 [])).bind
        (fun q => UploadModal.normalizeForParent q.toJS)
      = .ok ⟨.undefined, .str "", .null, .bool false,
          some (.obj 0 [("id", .undefined), ("filename", .str ""), ("s3Key", .null),
                      ("isDraft", .bool false), ("__raw", .obj 1 [])])⟩) ∧
    ((UploadModal.normalizeForParent (.obj 1 [])).bind
        (fun q => UploadModal.normalizeForParent q.toJS)
      ≠ UploadModal.normalizeForParent (.obj 1 [])) := by
  decide

theorem splitChars_shape (sep : Char) (cs : List Char) :
    ∃ first rest, splitChars sep cs = first :: rest ∧ sep ∉ first ∧
      ((rest = [] ∧ cs = first) ∨
       (∃ seg pre, rest.getLast? = some seg ∧ sep ∉ seg ∧ cs = pre ++ sep :: seg)) := by
  induction cs with
  | nil => exact ⟨[], [], rfl, by simp, Or.inl ⟨rfl, rfl⟩⟩
  | cons c cs ih =>
    obtain ⟨first, rest, hsplit, hfirst, hrest⟩ := ih
    by_cases hc : c = sep
    · refine ⟨[], first :: rest, by simp [splitChars, hc, hsplit], by simp, Or.inr ?_⟩
      rcases hrest with ⟨hnil, hcs⟩ | ⟨seg, pre, hlast, hseg, hcs⟩
      · exact ⟨first, [], by simp [hnil], hfirst, by simp [hc, hcs]⟩
      · refine ⟨seg, c :: pre, ?_, hseg, by simp [hcs]⟩
        cases rest with
        | nil => simp at hlast
        | cons y ys => simpa [List.getLast?_cons_cons] using hlast
    · refine ⟨c :: first, rest, by simp [splitChars, hc, hsplit], ?_, ?_⟩
      · simp only [List.mem_cons, not_or]
        exact ⟨fun h => hc h.symm, hfirst⟩
      · rcases hrest with ⟨hnil, hcs⟩ | ⟨seg, pre, hlast, hseg, hcs⟩
        · exact Or.inl ⟨hnil, by simp [hcs]⟩
        · exact Or.inr ⟨seg, c :: pre, hlast, hseg, by simp [hcs]⟩

/-- The last piece of `split`: it holds no separator and is what follows the last
separator of the input (the whole input when there is none). -/
theorem splitChars_getLast (sep : Char) (cs : List Char) :
    ∃ seg, (splitChars sep cs).getLast? = some seg ∧ sep ∉ seg ∧
      (cs = seg ∨ ∃ pre, cs = pre ++ sep :: seg) := by
  obtain ⟨first, rest, hsplit, hfirst, hrest⟩ := splitChars_shape sep cs
  rcases hrest with ⟨hnil, hcs⟩ | ⟨seg, pre, hlast, hseg, hcs⟩
  · exact ⟨first, by simp [hsplit, hnil], hfirst, Or.inl hcs⟩
  · refine ⟨seg, ?_, hseg, Or.inr ⟨pre, hcs⟩⟩
    cases rest with
    | nil => simp at hlast
    | cons y ys => simpa [hsplit, List.getLast?_cons_cons] using hlast

theorem splitPop_str (s : String) :
    ∃ seg : String, splitPop (.str s) = .ok (.str seg) ∧ '/' ∉ seg.data ∧
      (s = seg ∨ ∃ pre : String, s.data = pre.data ++ '/' :: seg.data) := by
  obtain ⟨seg, hlast, hseg, hcs⟩ := splitChars_getLast '/' s.data
  refine ⟨String.mk seg, ?_, hseg, ?_⟩
  · simp [splitPop, jsSplitSlash, List.getLast?_map, hlast]
  · rcases hcs with h | ⟨pre, h⟩
    · left
      exact String.ext h
    · exact Or.inr ⟨String.mk pre, h⟩

/-- C3 (amended): for each normalizer and every raw profile `p` (not `null` or
`undefined`), the normalized filename is `p.fileName` when that value is truthy,
else `p.filename` when that value is truthy, else, when `p.s3Key` is a non-empty
string, its last `/`-separated segment (the part after the last `/`, holding no
`/`), else the empty string when `p.s3Key` is falsy; a truthy `s3Key` that is not a
string makes the normalizer throw.  For an object holding only
`s3Key: "a/b/c.pdf"` the filename is `"c.pdf"`. -/
theorem filename_precedence :
    ∀ norm ∈ [OpeningDetails.normalizeProfile, UploadModal.normalizeForParent],
      (∀ p : JSVal, p.isNullish = false →
        ((p.field "fileName").truthy = true →
          (norm p).map Profile.filename = .ok (p.field "fileName")) ∧
        ((p.field "fileName").truthy = false → (p.field "filename").truthy = true →
          (norm p).map Profile.filename = .ok (p.field "filename")) ∧
        ((p.field "fileName").truthy = false → (p.field "filename").truthy = false →
          ∀ s : String, p.field "s3Key" = .str s → s ≠ "" →
            ∃ seg : String, (norm p).map Profile.filename = .ok (.str seg) ∧
              '/' ∉ seg.data ∧
              (s = seg ∨ ∃ pre : String, s.data = pre.data ++ '/' :: seg.data)) ∧
        ((p.field "fileName").truthy = false → (p.field "filename").truthy = false →
          (p.field "s3Key").truthy = false →
          (norm p).map Profile.filename = .ok (.str "")) ∧
        ((p.field "fileName").truthy = false → (p.field "filename").truthy = false →
          (p.field "s3Key").truthy = true → (∀ s, p.field "s3Key" ≠ .str s) →
          norm p = .error .typeError)) ∧
      (∀ address : Nat,
        (norm (.obj address [("s3Key", .str "a/b/c.pdf")])).map Profile.filename
          = .ok (.str "c.pdf")) := by
  have key : ∀ norm ∈ [OpeningDetails.normalizeProfile, UploadModal.normalizeForParent],
      ∀ p : JSVal, p.isNullish = false →
        (norm p).map Profile.filename = profileFilename p ∧
        (∀ e, profileFilename p = .error e → norm p = .error e) := by
    intro norm hmem p hp
    simp only [List.mem_cons, List.mem_singleton, List.not_mem_nil, or_false] at hmem
    rcases hmem with rfl | rfl
    · rw [normalizeProfile_eq p hp]
      cases profileFilename p <;> simp [Except.bind, Except.map]
    · rw [normalizeForParent_eq p hp]
      cases profileFilename p <;> simp [Except.bind, Except.map]
  intro norm hmem
  refine ⟨fun p hp => ?_, ?_⟩
  · obtain ⟨hmap, herr⟩ := key norm hmem p hp
    rw [hmap, profileFilename_eq p hp]
    refine ⟨fun ha => by simp [ha], fun ha hb => by simp [ha, hb], ?_,
      fun ha hb hk => by simp [ha, hb, hk], ?_⟩
    · intro ha hb s hs hne
      have hk : (p.field "s3Key").truthy = true := by simp [hs, JSVal.truthy, hne]
      obtain ⟨seg, h1, h2, h3⟩ := splitPop_str s
      refine ⟨seg, ?_, h2, h3⟩
      simp only [ha, hb, hk, Bool.false_eq_true, if_false, if_true]
      rw [hs, h1]
    · intro ha hb hk hs
      apply herr
      rw [profileFilename_eq p hp]
      simp only [ha, hb, hk, Bool.false_eq_true, if_false, if_true]
      cases hv : p.field "s3Key" with
      | str s => exact absurd hv (hs s)
      | _ => rfl
  · simp only [List.mem_cons, List.mem_singleton, List.not_mem_nil, or_false] at hmem
    rcases hmem with rfl | rfl <;> intro address <;> rfl

/-- Witness of C3: a profile with both `fileName` and `s3Key`, and one whose only
name source is its `s3Key`. -/
theorem filename_precedence_witness :
    (OpeningDetails.normalizeProfile
        (.obj 1 [("fileName", .str "cv.pdf"), ("s3Key", .str "u/1/x.pdf")])).map
      Profile.filename = .ok (.str "cv.pdf") ∧
    (∃ seg : String,
      (UploadModal.normalizeForParent (.obj 1 [("s3Key", .str "u/1/x.pdf")])).map
        Profile.filename = .ok (.str seg) ∧ '/' ∉ seg.data ∧
      ("u/1/x.pdf" = seg ∨
        ∃ pre : String, "u/1/x.pdf".data = pre.data ++ '/' :: seg.data)) :=
  ⟨((filename_precedence OpeningDetails.normalizeProfile (by simp)).1
      (.obj 1 [("fileName", .str "cv.pdf"), ("s3Key", .str "u/1/x.pdf")]) rfl).1
      (by decide),
   ((filename_precedence UploadModal.normalizeForParent (by simp)).1
      (.obj 1 [("s3Key", .str "u/1/x.pdf")]) rfl).2.2.1
      (by decide) (by decide) "u/1/x.pdf" (by decide) (by decide)⟩

/-- C3 as stated fails: in the profile below the field `fileName` is present (it
holds the empty string), yet the normalized filename is not `p.fileName` but the
value of `filename`. -/
theorem filename_present_but_empty :
    ("fileName", JSVal.str "") ∈ [("fileName", JSVal.str ""), ("filename", JSVal.str "cv.pdf")] ∧
    (OpeningDetails.normalizeProfile
        (.obj 1 [("fileName", .str ""), ("filename", .str "cv.pdf")])).map Profile.filename
      = .ok (.str "cv.pdf") ∧
    (UploadModal.normalizeForParent
        (.obj 1 [("fileName", .str ""), ("filename", .str "cv.pdf")])).map Profile.filename
      = .ok (.str "cv.pdf") ∧
    (OpeningDetails.normalizeProfile
        (.obj 1 [("fileName", .str ""), ("filename", .str "cv.pdf")])).map Profile.filename
      ≠ .ok ((JSVal.obj 1 [("fileName", .str ""), ("filename", .str "cv.pdf")]).field
              "fileName") := by
  decide

/-! ## The upload workflow -/

namespace UploadModal

theorem modal_parse_ok (env : Env) (res : Response) :
    (parseResponse env res).ok = res.ok := by
  unfold parseResponse
  dsimp only
  split <;> rfl

/-- When every presign succeeds the loop issues one presign per file, in order, and
collects one entry per file. -/
theorem presignLoop_all_ok (env : Env) (openingId : JSVal) (net : Nat → FetchResult) :
    ∀ (files : List StagedFile) (i : Nat) (acc : List JSVal) (reqs : List Request),
      (∀ j, j < files.length → (net (i + j)).succeeded = true) →
      presignLoop env openingId net files i acc reqs =
        (reqs ++ files.map (presignRequest env openingId),
         .ok (acc ++ (List.range files.length).map
                (fun j => presignEntryOf env (net (i + j))))) := by
  intro files
  induction files with
  | nil => intro i acc reqs _; simp [presignLoop]
  | cons f rest ih =>
    intro i acc reqs hall
    have h0 := hall 0 (by simp)
    simp only [Nat.add_zero] at h0
    unfold presignLoop
    cases hn : net i with
    | error m => simp [hn, FetchResult.succeeded] at h0
    | ok res =>
      have hok : (parseResponse env res).ok = true := by
        rw [modal_parse_ok]
        simpa [hn, FetchResult.succeeded] using h0
      simp only [hok, Bool.not_true, Bool.false_eq_true, if_false]
      rw [ih (i + 1) _ _ (fun j hj => by
        have := hall (j + 1) (by simpa using hj)
        rwa [show i + 1 + j = i + (j + 1) by omega])]
      have e0 : presignEntryOf env (net i) = presignEntry (parseResponse env res) := by
        simp [presignEntryOf, hn]
      have es : ∀ j, net (i + 1 + j) = net (i + (j + 1)) := fun j => by
        rw [show i + 1 + j = i + (j + 1) by omega]
      simp [List.range_succ_eq_map, es, e0, Function.comp_def]

/-- When the first failing presign is the k-th, the loop issues the presign requests
of the first k+1 files and throws. -/
theorem presignLoop_first_failure (env : Env) (openingId : JSVal)
    (net : Nat → FetchResult) :
    ∀ (files : List StagedFile) (i : Nat) (acc : List JSVal) (reqs : List Request)
      (k : Nat), k < files.length →
      (∀ j, j < k → (net (i + j)).succeeded = true) →
      (net (i + k)).succeeded = false →
      ∃ err, presignLoop env openingId net files i acc reqs =
        (reqs ++ (files.take (k + 1)).map (presignRequest env openingId), .error err) := by
  intro files
  induction files with
  | nil => intro i acc reqs k hk; simp at hk
  | cons f rest ih =>
    intro i acc reqs k hk hbefore hfail
    unfold presignLoop
    cases k with
    | zero =>
      simp only [Nat.add_zero] at hfail
      cases hn : net i with
      | error m => exact ⟨.error m, by simp⟩
      | ok res =>
        have hok : (parseResponse env res).ok = false := by
          rw [modal_parse_ok]
          simpa [hn, FetchResult.succeeded] using hfail
        exact ⟨.error (strOr (parseResponse env res).text "Presign failed"), by simp [hok]⟩
    | succ k =>
      have h0 := hbefore 0 (by omega)
      simp only [Nat.add_zero] at h0
      cases hn : net i with
      | error m => simp [hn, FetchResult.succeeded] at h0
      | ok res =>
        have hok : (parseResponse env res).ok = true := by
          rw [modal_parse_ok]
          simpa [hn, FetchResult.succeeded] using h0
        simp only [hok, Bool.not_true, Bool.false_eq_true, if_false]
        obtain ⟨err, herr⟩ := ih (i + 1) (acc ++ [presignEntry (parseResponse env res)])
          (reqs ++ [presignRequest env openingId f]) k (by simpa using hk)
          (fun j hj => by
            have := hbefore (j + 1) (by omega)
            rwa [show i + 1 + j = i + (j + 1) by omega])
          (by rwa [show i + 1 + k = i + (k + 1) by omega])
        exact ⟨err, by simp [herr]⟩

/-- A loop that completes has seen every presign succeed. -/
theorem presignLoop_ok_inv (env : Env) (openingId : JSVal) (net : Nat → FetchResult) :
    ∀ (files : List StagedFile) (i : Nat) (acc : List JSVal) (reqs : List Request)
      (out : List Request) (entries : List JSVal),
      presignLoop env openingId net files i acc reqs = (out, .ok entries) →
      ∀ j, j < files.length → (net (i + j)).succeeded = true := by
  intro files
  induction files with
  | nil => intro i acc reqs out entries _ j hj; simp at hj
  | cons f rest ih =>
    intro i acc reqs out entries hrun j hj
    unfold presignLoop at hrun
    cases hn : net i with
    | error m => simp [hn] at hrun
    | ok res =>
      simp only [hn] at hrun
      by_cases hok : (parseResponse env res).ok = true
      · simp only [hok, Bool.not_true, Bool.false_eq_true, if_false] at hrun
        cases j with
        | zero =>
          rw [modal_parse_ok] at hok
          simpa [hn, FetchResult.succeeded] using hok
        | succ j =>
          have := ih (i + 1) _ _ out entries hrun j (by simpa using hj)
          rwa [show i + 1 + j = i + (j + 1) by omega] at this
      · simp [hok] at hrun

theorem guard_passes (openingId : JSVal) (st : ModalState)
    (hid : openingId.truthy = true) (hfiles : st.files ≠ []) :
    (!openingId.truthy || st.files.length == 0) = false := by
  cases hf : st.files with
  | nil => exact absurd hf hfiles
  | cons f rest => simp [hid]

/-- C4 (amended): when the `openingId` prop is truthy, for every non-empty list of
staged files, every endpoint and every assignment of backend outcomes, the requests
issued by `uploadFiles` are the presign requests of the staged files in staged
order, ending with the first file whose presign fails (nothing is requested for a
later file and no persist request is made); and when all presigns succeed they are
followed by exactly one persist request to `.../profiles/<endpoint>` whose
`profiles` payload has one entry per file, the i-th being the
`{filename, s3Key}` taken from the response for the i-th file. -/
theorem uploadFiles_requests (env : Env) (openingId : JSVal) (endpoint : String)
    (net : Nat → FetchResult) (st : ModalState)
    (hid : openingId.truthy = true) (hfiles : st.files ≠ []) :
    (∀ k, k < st.files.length → (∀ j, j < k → (net j).succeeded = true) →
        (net k).succeeded = false →
        (uploadFiles env openingId endpoint net st).requests =
          (st.files.take (k + 1)).map (presignRequest env openingId)) ∧
    ((∀ j, j < st.files.length → (net j).succeeded = true) →
        ∃ persist entries,
          (uploadFiles env openingId endpoint net st).requests =
            st.files.map (presignRequest env openingId) ++ [persist] ∧
          persist.method = "POST" ∧
          persist.url = env.apiBase ++ "/vendor/openings/" ++ openingId.toStr ++
            "/profiles/" ++ endpoint ∧
          persist.body = .json (.obj 0 [("profiles", .arr 0 entries)]) ∧
          entries.length = st.files.length ∧
          ∀ i, i < st.files.length → entries[i]? = some (presignEntryOf env (net i))) := by
  have hguard := guard_passes openingId st hid hfiles
  constructor
  · intro k hk hbefore hfail
    obtain ⟨err, herr⟩ := presignLoop_first_failure env openingId net st.files 0 [] [] k hk
      (fun j hj => by simpa using hbefore j hj) (by simpa using hfail)
    unfold uploadFiles
    simp only [hguard, Bool.false_eq_true, if_false, herr]
    rfl
  · intro hall
    have hloop := presignLoop_all_ok env openingId net st.files 0 [] []
      (fun j hj => by simpa using hall j hj)
    refine ⟨saveRequest env openingId endpoint
        ((List.range st.files.length).map (fun i => presignEntryOf env (net i))),
      (List.range st.files.length).map (fun i => presignEntryOf env (net i)),
      ?_, rfl, rfl, rfl, by simp, ?_⟩
    · unfold uploadFiles
      simp only [hguard, Bool.false_eq_true, if_false, hloop, Nat.zero_add,
        List.nil_append]
      cases hn : net st.files.length with
      | error m => rfl
      | ok res =>
        dsimp only
        split
        · rfl
        · split <;> rfl
    · intro i hi
      simp [hi]

/-- Witness of C4: two staged files, the second presign answered with a non-ok
response. -/
theorem uploadFiles_requests_witness :
    (uploadFiles ⟨"", tableDecoder []⟩ (.str "42") "upload"
        (fun i => if i = 0 then .ok ⟨true, 200, ""⟩ else .ok ⟨false, 500, "boom"⟩)
        ⟨[⟨"a.pdf", []⟩, ⟨"b.pdf", []⟩, ⟨"c.pdf", []⟩], false, false, false⟩).requests =
      ([⟨"a.pdf", []⟩, ⟨"b.pdf", []⟩, ⟨"c.pdf", []⟩].take (1 + 1)).map
        (presignRequest ⟨"", tableDecoder []⟩ (.str "42")) :=
  (uploadFiles_requests ⟨"", tableDecoder []⟩ (.str "42") "upload"
      (fun i => if i = 0 then .ok ⟨true, 200, ""⟩ else .ok ⟨false, 500, "boom"⟩)
      ⟨[⟨"a.pdf", []⟩, ⟨"b.pdf", []⟩, ⟨"c.pdf", []⟩], false, false, false⟩
      (by decide) (by decide)).1 1 (by decide)
    (fun j hj => by
      have : j = 0 := by omega
      subst this
      rfl)
    (by rfl)

/-- C4 as stated fails when the `openingId` prop is missing: with one staged file
and a backend that answers every request successfully, `uploadFiles` issues no
request at all, where the claim has a presign request followed by a persist
request. -/
theorem upload_without_opening_id :
    (uploadFiles ⟨"", tableDecoder []⟩ .undefined "upload"
        (fun _ => .ok ⟨true, 200, ""⟩)
        ⟨[⟨"a.pdf", []⟩], false, false, false⟩).requests = [] ∧
    (uploadFiles ⟨"", tableDecoder []⟩ .undefined "upload"
        (fun _ => .ok ⟨true, 200, ""⟩)
        ⟨[⟨"a.pdf", []⟩], false, false, false⟩).requests ≠
      [presignRequest ⟨"", tableDecoder []⟩ .undefined ⟨"a.pdf", []⟩,
       saveRequest ⟨"", tableDecoder []⟩ .undefined "upload"
         [presignEntryOf ⟨"", tableDecoder []⟩ (.ok ⟨true, 200, ""⟩)]] := by
  constructor
  · rfl
  · intro h
    have h2 : (uploadFiles ⟨"", tableDecoder []⟩ .undefined "upload"
        (fun _ => .ok ⟨true, 200, ""⟩)
        ⟨[⟨"a.pdf", []⟩], false, false, false⟩).requests = [] := rfl
    rw [h2] at h
    exact List.noConfusion h

/-- C5: in every run of `uploadFiles` in which a presign request or the persist
request fails (the i-th `fetch` of the run, for some i up to the number of staged
files, rejects or returns a non-ok response), the staged file list after the run
is the staged file list before it, `onUploaded` is not invoked and `onClose` is
not scheduled. -/
theorem uploadFiles_failure_keeps_files (env : Env) (openingId : JSVal)
    (endpoint : String) (net : Nat → FetchResult) (st : ModalState)
    (hfail : ∃ k, k ≤ st.files.length ∧ (net k).succeeded = false) :
    (uploadFiles env openingId endpoint net st).state.files = st.files ∧
    (uploadFiles env openingId endpoint net st).uploaded = [] ∧
    (uploadFiles env openingId endpoint net st).closeScheduled = false := by
  unfold uploadFiles
  split
  · exact ⟨rfl, rfl, rfl⟩
  · have hst : (if endpoint = "uploadasdraft" then { st with isSavingDraft := true }
        else { st with isUploadingFinal := true } : ModalState).files = st.files := by
      split <;> rfl
    dsimp only
    generalize (if endpoint = "uploadasdraft" then { st with isSavingDraft := true }
        else { st with isUploadingFinal := true } : ModalState) = st1 at hst
    cases hloop : presignLoop env openingId net st.files 0 [] [] with
    | mk reqs result =>
      cases result with
      | error err => exact ⟨hst, rfl, rfl⟩
      | ok entries =>
        have hall := presignLoop_ok_inv env openingId net st.files 0 [] [] reqs entries hloop
        obtain ⟨k, hk, hkfail⟩ := hfail
        have hkn : k = st.files.length := by
          rcases Nat.lt_or_eq_of_le hk with hlt | heq
          · have := hall k hlt
            simp only [Nat.zero_add] at this
            rw [this] at hkfail
            exact absurd hkfail (by decide)
          · exact heq
        subst hkn
        dsimp only
        cases hn : net st.files.length with
        | error m => exact ⟨hst, rfl, rfl⟩
        | ok res =>
          have hok : (parseResponse env res).ok = false := by
            rw [modal_parse_ok]
            simpa [hn, FetchResult.succeeded] using hkfail
          simp only [hok, Bool.not_false, if_true]
          exact ⟨hst, rfl, rfl⟩

/-- Witness of C5: one staged file whose presign is rejected by the transport. -/
theorem uploadFiles_failure_keeps_files_witness :
    (uploadFiles ⟨"", tableDecoder []⟩ (.str "42") "uploadasdraft"
        (fun _ => .error "Failed to fetch")
        ⟨[⟨"a.pdf", []⟩], false, false, false⟩).state.files = [⟨"a.pdf", []⟩] ∧
    (uploadFiles ⟨"", tableDecoder []⟩ (.str "42") "uploadasdraft"
        (fun _ => .error "Failed to fetch")
        ⟨[⟨"a.pdf", []⟩], false, false, false⟩).uploaded = [] ∧
    (uploadFiles ⟨"", tableDecoder []⟩ (.str "42") "uploadasdraft"
        (fun _ => .error "Failed to fetch")
        ⟨[⟨"a.pdf", []⟩], false, false, false⟩).closeScheduled = false :=
  uploadFiles_failure_keeps_files ⟨"", tableDecoder []⟩ (.str "42") "uploadasdraft"
    (fun _ => .error "Failed to fetch") ⟨[⟨"a.pdf", []⟩], false, false, false⟩
    ⟨0, by decide, rfl⟩

end UploadModal

/-! ## The opening detail view -/

namespace OpeningDetails

theorem view_parse_ok (env : Env) (res : Response) :
    (parseResponse env res).ok = res.ok := by
  unfold parseResponse
  dsimp only
  split <;> rfl

/-- C6: when the status of the opening is `"SUBMITTED"`, `handleDelete` issues no
request, reports the rejection with one error toast, and leaves the local profile
list (indeed the whole component state) unchanged, for every file and list. -/
theorem handleDelete_submitted (env : Env) (id : JSVal) (net : FetchResult)
    (st : ViewState) (file : Profile) (hstatus : st.status = .str "SUBMITTED") :
    (handleDelete env id net st file).requests = [] ∧
    (handleDelete env id net st file).toasts =
      ["Profiles cannot be deleted after submission."] ∧
    (handleDelete env id net st file).state.uploadedFiles = st.uploadedFiles ∧
    (handleDelete env id net st file).state = st := by
  simp [handleDelete, hstatus, JSVal.strictEq]

/-- Witness of C6: a submitted opening holding one persisted profile. -/
theorem handleDelete_submitted_witness :
    (handleDelete ⟨"", tableDecoder []⟩ (.str "42") (.ok ⟨true, 200, ""⟩)
        ⟨.null, false, false, [⟨.num "7", .str "cv.pdf", .str "k/cv.pdf", .bool false, none⟩],
          .str "SUBMITTED", none, false, false⟩
        ⟨.num "7", .str "cv.pdf", .str "k/cv.pdf", .bool false, none⟩).requests = [] :=
  (handleDelete_submitted ⟨"", tableDecoder []⟩ (.str "42") (.ok ⟨true, 200, ""⟩)
    ⟨.null, false, false, [⟨.num "7", .str "cv.pdf", .str "k/cv.pdf", .bool false, none⟩],
      .str "SUBMITTED", none, false, false⟩
    ⟨.num "7", .str "cv.pdf", .str "k/cv.pdf", .bool false, none⟩ rfl).1

theorem fetchOpeningFull_requests (env : Env) (id : JSVal) (net : FetchResult)
    (st : ViewState) (hid : id.truthy = true) :
    (fetchOpeningFull env id net st).requests = [openingRequest env id] := by
  unfold fetchOpeningFull
  simp only [hid, Bool.not_true, Bool.false_eq_true, if_false]
  split <;> rfl

theorem applyOpeningResponse_files (env : Env) (net : FetchResult) (st : ViewState) :
    (applyOpeningResponse env net st).1.uploadedFiles = st.uploadedFiles ∨
    ∃ res, net = .ok res ∧ res.ok = true ∧
      mapArray normalizeProfile
        (((parseResponse env res).data.field "profiles").or (.arr 0 [])) =
        .ok (applyOpeningResponse env net st).1.uploadedFiles := by
  unfold applyOpeningResponse
  cases net with
  | error m => exact Or.inl rfl
  | ok res =>
    dsimp only
    split
    · exact Or.inl rfl
    · rename_i hok
      split
      · exact Or.inl rfl
      · split
        · exact Or.inl rfl
        · rename_i profiles hmap
          refine Or.inr ⟨res, rfl, ?_, hmap⟩
          rw [view_parse_ok] at hok
          simpa using hok

theorem fetchOpeningFull_files (env : Env) (id : JSVal) (net : FetchResult)
    (st : ViewState) :
    (fetchOpeningFull env id net st).state.uploadedFiles = st.uploadedFiles ∨
    ∃ res, net = .ok res ∧ res.ok = true ∧
      mapArray normalizeProfile
        (((parseResponse env res).data.field "profiles").or (.arr 0 [])) =
        .ok (fetchOpeningFull env id net st).state.uploadedFiles := by
  unfold fetchOpeningFull
  split
  · exact Or.inl rfl
  · have h := applyOpeningResponse_files env net { st with loading := true, error := none }
    dsimp only
    split <;> rename_i st2 _ heq <;> rw [heq] at h <;> exact h

/-- The callback `onUploaded` is reached by `uploadFiles` only past its guard, that
is with a truthy `openingId`. -/
theorem uploadFiles_notifies_with_id (env : Env) (openingId : JSVal) (endpoint : String)
    (nets : Nat → FetchResult) (modal : UploadModal.ModalState)
    (hcall : (UploadModal.uploadFiles env openingId endpoint nets modal).uploaded ≠ []) :
    openingId.truthy = true := by
  by_cases hid : openingId.truthy = true
  · exact hid
  · exfalso
    apply hcall
    unfold UploadModal.uploadFiles
    simp [hid]

/-- C7: re-sync policy of `handleUploaded`, for every local list `L` and every list
`N` of new profiles.  If the upload modal has never been opened, the local list
becomes `L` followed by `N` (its length grows by the length of `N`) and no request
is issued.  If it has been opened, a full re-fetch of the opening is issued instead,
exactly one `GET /vendor/openings/:id`, and `N` is not appended: the outcome does
not depend on `N`, and the local list afterwards is `L` or the normalized profiles
of the fetched opening.  The route `id` is truthy whenever `handleUploaded` runs:
its only caller is `uploadFiles`, given the same `id` as `openingId`, and that
reaches `onUploaded` only past its guard (last part). -/
theorem handleUploaded_policy (env : Env) (id : JSVal) (net : FetchResult)
    (st : ViewState) (newProfiles : List Profile) :
    (st.hasUploadModalOpened = false →
      (handleUploaded env id net st newProfiles).state.uploadedFiles =
        st.uploadedFiles ++ newProfiles ∧
      (handleUploaded env id net st newProfiles).state.uploadedFiles.length =
        st.uploadedFiles.length + newProfiles.length ∧
      (handleUploaded env id net st newProfiles).requests = []) ∧
    (st.hasUploadModalOpened = true → id.truthy = true →
      (∃ request, (handleUploaded env id net st newProfiles).requests = [request] ∧
        request.method = "GET" ∧
        request.url = env.apiBase ++ "/vendor/openings/" ++ id.toStr ∧
        request.jsonContentType = false ∧ request.body = .none) ∧
      (∀ other : List Profile,
        handleUploaded env id net st newProfiles = handleUploaded env id net st other) ∧
      ((handleUploaded env id net st newProfiles).state.uploadedFiles = st.uploadedFiles ∨
        ∃ res, net = .ok res ∧ res.ok = true ∧
          mapArray normalizeProfile
            (((parseResponse env res).data.field "profiles").or (.arr 0 [])) =
            .ok (handleUploaded env id net st newProfiles).state.uploadedFiles)) ∧
    (∀ (endpoint : String) (nets : Nat → FetchResult) (modal : UploadModal.ModalState),
      (UploadModal.uploadFiles env id endpoint nets modal).uploaded ≠ [] →
      id.truthy = true) := by
  refine ⟨?_, ?_, fun endpoint nets modal hcall =>
    uploadFiles_notifies_with_id env id endpoint nets modal hcall⟩
  · intro h
    simp [handleUploaded, h]
  · intro h hid
    have heq : ∀ other, handleUploaded env id net st other = fetchOpeningFull env id net st :=
      fun other => by simp [handleUploaded, h]
    refine ⟨⟨openingRequest env id, ?_, rfl, rfl, rfl, rfl⟩,
      fun other => by rw [heq, heq], ?_⟩
    · rw [heq]
      exact fetchOpeningFull_requests env id net st hid
    · rw [heq]
      exact fetchOpeningFull_files env id net st

/-- Witness of C7: before the modal was ever opened two new profiles are appended to
a list of one; after it was opened the same call issues the one `GET` instead. -/
theorem handleUploaded_policy_witness :
    (handleUploaded ⟨"", tableDecoder []⟩ (.str "42") (.error "offline")
        ⟨.null, false, false, [⟨.num "7", .str "cv.pdf", .str "k/cv.pdf", .bool false, none⟩],
          .str "PENDING", none, false, false⟩
        [⟨.num "8", .str "a.pdf", .str "k/a.pdf", .bool true, none⟩,
         ⟨.num "9", .str "b.pdf", .str "k/b.pdf", .bool true, none⟩]).state.uploadedFiles =
      [⟨.num "7", .str "cv.pdf", .str "k/cv.pdf", .bool false, none⟩] ++
        [⟨.num "8", .str "a.pdf", .str "k/a.pdf", .bool true, none⟩,
         ⟨.num "9", .str "b.pdf", .str "k/b.pdf", .bool true, none⟩] ∧
    (∃ request,
      (handleUploaded ⟨"", tableDecoder []⟩ (.str "42") (.error "offline")
        ⟨.null, false, true, [⟨.num "7", .str "cv.pdf", .str "k/cv.pdf", .bool false, none⟩],
          .str "PENDING", none, false, true⟩
        [⟨.num "8", .str "a.pdf", .str "k/a.pdf", .bool true, none⟩]).requests = [request] ∧
      request.method = "GET" ∧
      request.url = "" ++ "/vendor/openings/" ++ (JSVal.str "42").toStr ∧
      request.jsonContentType = false ∧ request.body = .none) :=
  ⟨((handleUploaded_policy ⟨"", tableDecoder []⟩ (.str "42") (.error "offline")
      ⟨.null, false, false, [⟨.num "7", .str "cv.pdf", .str "k/cv.pdf", .bool false, none⟩],
        .str "PENDING", none, false, false⟩
      [⟨.num "8", .str "a.pdf", .str "k/a.pdf", .bool true, none⟩,
       ⟨.num "9", .str "b.pdf", .str "k/b.pdf", .bool true, none⟩]).1 rfl).1,
   ((handleUploaded_policy ⟨"", tableDecoder []⟩ (.str "42") (.error "offline")
      ⟨.null, false, true, [⟨.num "7", .str "cv.pdf", .str "k/cv.pdf", .bool false, none⟩],
        .str "PENDING", none, false, true⟩
      [⟨.num "8", .str "a.pdf", .str "k/a.pdf", .bool true, none⟩]).2.1 rfl rfl).1⟩

theorem strictEq_str (a : JSVal) (s : String) :
    JSVal.strictEq a (.str s) = decide (a = .str s) := by
  cases a with
  | str t =>
    by_cases h : t = s
    · simp [JSVal.strictEq, h]
    · simp [JSVal.strictEq, h]
  | _ => simp [JSVal.strictEq]

/-- C8 (amended): for every local profile list and every target file whose `id` is
falsy (in particular missing or `null`), when the status is not `"SUBMITTED"`,
`handleDelete` issues no request and the resulting list is exactly the prior list,
in order, without the entries whose `s3Key` and `filename` are both `===` to those
of the target: an entry is kept if and only if it differs from the target in
`s3Key` or in `filename`, so every entry carrying that pair is removed, whether or
not it is the target or has an id. -/
theorem handleDelete_local (env : Env) (id : JSVal) (net : FetchResult)
    (st : ViewState) (file : Profile)
    (hstatus : st.status ≠ .str "SUBMITTED") (hid : file.id.truthy = false) :
    (handleDelete env id net st file).requests = [] ∧
    (handleDelete env id net st file).state.uploadedFiles =
      st.uploadedFiles.filter
        (fun f => !(JSVal.strictEq f.s3Key file.s3Key &&
                    JSVal.strictEq f.filename file.filename)) ∧
    (handleDelete env id net st file).state.uploadedFiles.Sublist st.uploadedFiles ∧
    (∀ f, f ∈ (handleDelete env id net st file).state.uploadedFiles ↔
      f ∈ st.uploadedFiles ∧
        ¬(JSVal.strictEq f.s3Key file.s3Key = true ∧
          JSVal.strictEq f.filename file.filename = true)) := by
  have hs : JSVal.strictEq st.status (.str "SUBMITTED") = false := by
    rw [strictEq_str]
    simpa using hstatus
  have hlist : (handleDelete env id net st file).state.uploadedFiles =
      st.uploadedFiles.filter
        (fun f => !(JSVal.strictEq f.s3Key file.s3Key &&
                    JSVal.strictEq f.filename file.filename)) := by
    unfold handleDelete
    simp only [hs, hid, Bool.false_eq_true, if_false]
    apply List.filter_congr
    intro f _
    cases JSVal.strictEq f.s3Key file.s3Key <;>
      cases JSVal.strictEq f.filename file.filename <;> rfl
  have hreq : (handleDelete env id net st file).requests = [] := by
    unfold handleDelete
    simp only [hs, hid, Bool.false_eq_true, if_false]
  rw [hlist]
  refine ⟨hreq, rfl, List.filter_sublist _, fun f => ?_⟩
  rw [List.mem_filter]
  simp only [Bool.not_eq_true', Bool.and_eq_false_iff, Bool.and_eq_true, not_and,
    Bool.not_eq_true]
  constructor
  · rintro ⟨hm, h | h⟩
    · exact ⟨hm, fun h1 => by simp [h] at h1⟩
    · exact ⟨hm, fun _ => h⟩
  · rintro ⟨hm, h⟩
    refine ⟨hm, ?_⟩
    cases h1 : JSVal.strictEq f.s3Key file.s3Key
    · exact Or.inl rfl
    · exact Or.inr (h h1)

/-- Witness of C8: a staged entry without id is removed from a list that also holds
a persisted profile. -/
theorem handleDelete_local_witness :
    (handleDelete ⟨"", tableDecoder []⟩ (.str "42") (.error "unused")
        ⟨.null, false, false,
          [⟨.num "7", .str "cv.pdf", .str "k/cv.pdf", .bool false, none⟩,
           ⟨.undefined, .str "a.pdf", .str "k/a.pdf", .bool false, none⟩],
          .str "PENDING", none, false, false⟩
        ⟨.undefined, .str "a.pdf", .str "k/a.pdf", .bool false, none⟩).requests = [] :=
  (handleDelete_local ⟨"", tableDecoder []⟩ (.str "42") (.error "unused")
    ⟨.null, false, false,
      [⟨.num "7", .str "cv.pdf", .str "k/cv.pdf", .bool false, none⟩,
       ⟨.undefined, .str "a.pdf", .str "k/a.pdf", .bool false, none⟩],
      .str "PENDING", none, false, false⟩
    ⟨.undefined, .str "a.pdf", .str "k/a.pdf", .bool false, none⟩
    (by decide) rfl).1

/-- C8 as stated fails in its last clause: deleting the staged entry (no id) from the
list below also removes the persisted profile with id 7, which carries the same
`s3Key` and `filename`; more than the locally staged target entry is removed. -/
theorem staged_delete_removes_persisted :
    (handleDelete ⟨"", tableDecoder []⟩ (.str "42") (.error "unused")
        ⟨.null, false, false,
          [⟨.undefined, .str "cv.pdf", .str "k/cv.pdf", .bool false, none⟩,
           ⟨.num "7", .str "cv.pdf", .str "k/cv.pdf", .bool false, none⟩],
          .str "PENDING", none, false, false⟩
        ⟨.undefined, .str "cv.pdf", .str "k/cv.pdf", .bool false, none⟩).state.uploadedFiles
      = [] ∧
    (⟨.num "7", .str "cv.pdf", .str "k/cv.pdf", .bool false, none⟩ : Profile) ≠
      ⟨.undefined, .str "cv.pdf", .str "k/cv.pdf", .bool false, none⟩ := by
  decide

/-- C9 (amended): for every local profile list and every target file whose persisted
id is truthy (not 0, not the empty string), when the status is not `"SUBMITTED"`,
`handleDelete` issues exactly one request, `POST
/vendor/openings/:id/profiles/delete/:profileId` for that id and without body; if
the response is successful the resulting list is the prior list without the
entries whose id is `===` to that id, and if the response is not successful or the
request is rejected the list is unchanged. -/
theorem handleDelete_persisted (env : Env) (id : JSVal) (net : FetchResult)
    (st : ViewState) (file : Profile)
    (hstatus : st.status ≠ .str "SUBMITTED") (hid : file.id.truthy = true) :
    (∃ request, (handleDelete env id net st file).requests = [request] ∧
      request.method = "POST" ∧
      request.url = env.apiBase ++ "/vendor/openings/" ++ id.toStr ++
        "/profiles/delete/" ++ file.id.toStr ∧
      request.jsonContentType = false ∧ request.body = .none) ∧
    (net.succeeded = true →
      (handleDelete env id net st file).state.uploadedFiles =
        st.uploadedFiles.filter (fun f => !JSVal.strictEq f.id file.id)) ∧
    (net.succeeded = false →
      (handleDelete env id net st file).state.uploadedFiles = st.uploadedFiles) := by
  have hs : JSVal.strictEq st.status (.str "SUBMITTED") = false := by
    rw [strictEq_str]
    simpa using hstatus
  refine ⟨⟨deleteRequest env id file.id, ?_, rfl, rfl, rfl, rfl⟩, ?_, ?_⟩
  · unfold handleDelete
    simp only [hs, hid, Bool.false_eq_true, if_false, if_true]
    cases net with
    | error m => rfl
    | ok res =>
      dsimp only
      split <;> rfl
  · intro hok
    unfold handleDelete
    simp only [hs, hid, Bool.false_eq_true, if_false, if_true]
    cases net with
    | error m => simp [FetchResult.succeeded] at hok
    | ok res =>
      have hres : res.ok = true := by simpa [FetchResult.succeeded] using hok
      simp [view_parse_ok, hres]
  · intro hfail
    unfold handleDelete
    simp only [hs, hid, Bool.false_eq_true, if_false, if_true]
    cases net with
    | error m => rfl
    | ok res =>
      have hres : res.ok = false := by simpa [FetchResult.succeeded] using hfail
      simp [view_parse_ok, hres]

/-- Witness of C9: deleting the persisted profile 7 with a successful response. -/
theorem handleDelete_persisted_witness :
    (handleDelete ⟨"", tableDecoder []⟩ (.str "42") (.ok ⟨true, 200, ""⟩)
        ⟨.null, false, false,
          [⟨.num "7", .str "cv.pdf", .str "k/cv.pdf", .bool false, none⟩,
           ⟨.num "8", .str "a.pdf", .str "k/a.pdf", .bool false, none⟩],
          .str "PENDING", none, false, false⟩
        ⟨.num "7", .str "cv.pdf", .str "k/cv.pdf", .bool false, none⟩).state.uploadedFiles =
      ([⟨.num "7", .str "cv.pdf", .str "k/cv.pdf", .bool false, none⟩,
        ⟨.num "8", .str "a.pdf", .str "k/a.pdf", .bool false, none⟩] : List Profile).filter
        (fun f => !JSVal.strictEq f.id (JSVal.num "7")) :=
  (handleDelete_persisted ⟨"", tableDecoder []⟩ (.str "42") (.ok ⟨true, 200, ""⟩)
    ⟨.null, false, false,
      [⟨.num "7", .str "cv.pdf", .str "k/cv.pdf", .bool false, none⟩,
       ⟨.num "8", .str "a.pdf", .str "k/a.pdf", .bool false, none⟩],
      .str "PENDING", none, false, false⟩
    ⟨.num "7", .str "cv.pdf", .str "k/cv.pdf", .bool false, none⟩
    (by decide) rfl).2.1 rfl

/-- C9 as stated fails for a persisted profile whose id is the number 0: the test
`if (file.id)` is false, so no delete request is issued, where the claim has
exactly one, and the profile is dropped from the local list although the server
was never asked to delete it. -/
theorem delete_persisted_id_zero :
    (handleDelete ⟨"", tableDecoder []⟩ (.str "42") (.ok ⟨true, 200, ""⟩)
        ⟨.null, false, false,
          [⟨.num "0", .str "cv.pdf", .str "k/cv.pdf", .bool false, none⟩,
           ⟨.num "8", .str "a.pdf", .str "k/a.pdf", .bool false, none⟩],
          .str "PENDING", none, false, false⟩
        ⟨.num "0", .str "cv.pdf", .str "k/cv.pdf", .bool false, none⟩).requests = [] ∧
    (handleDelete ⟨"", tableDecoder []⟩ (.str "42") (.ok ⟨true, 200, ""⟩)
        ⟨.null, false, false,
          [⟨.num "0", .str "cv.pdf", .str "k/cv.pdf", .bool false, none⟩,
           ⟨.num "8", .str "a.pdf", .str "k/a.pdf", .bool false, none⟩],
          .str "PENDING", none, false, false⟩
        ⟨.num "0", .str "cv.pdf", .str "k/cv.pdf", .bool false, none⟩).state.uploadedFiles =
      [⟨.num "8", .str "a.pdf", .str "k/a.pdf", .bool false, none⟩] := by
  decide

/-- C10 fails in the code.  Both drafts below lack an id; the first is submitted
and the server answers ok.  The one request carries the first profile only, yet
the local update, which matches on `f.id === file.id`, sets `isDraft` to false on
the second profile as well: a profile other than the submitted one is changed, and
a draft that was never sent is shown as submitted. -/
theorem submit_shared_id_flips_other :
    (handleSubmit ⟨"", tableDecoder []⟩ (.str "42") (.ok ⟨true, 200, ""⟩)
        ⟨.null, false, false,
          [⟨.undefined, .str "a.pdf", .str "k/a.pdf", .bool true, none⟩,
           ⟨.undefined, .str "b.pdf", .str "k/b.pdf", .bool true, none⟩],
          .str "PENDING", none, false, false⟩
        (some ⟨.undefined, .str "a.pdf", .str "k/a.pdf", .bool true, none⟩)).state.uploadedFiles
      = [⟨.undefined, .str "a.pdf", .str "k/a.pdf", .bool false, none⟩,
         ⟨.undefined, .str "b.pdf", .str "k/b.pdf", .bool false, none⟩] ∧
    (handleSubmit ⟨"", tableDecoder []⟩ (.str "42") (.ok ⟨true, 200, ""⟩)
        ⟨.null, false, false,
          [⟨.undefined, .str "a.pdf", .str "k/a.pdf", .bool true, none⟩,
           ⟨.undefined, .str "b.pdf", .str "k/b.pdf", .bool true, none⟩],
          .str "PENDING", none, false, false⟩
        (some ⟨.undefined, .str "a.pdf", .str "k/a.pdf", .bool true, none⟩)).requests.map
        Request.body
      = [.json (.obj 0 [("profiles", .arr 0 [.obj 0 [("id", .undefined),
          ("filename", .str "a.pdf"), ("s3Key", .str "k/a.pdf"),
          ("isDraft", .bool true)]])])] ∧
    (⟨.undefined, .str "b.pdf", .str "k/b.pdf", .bool false, none⟩ : Profile) ≠
      ⟨.undefined, .str "b.pdf", .str "k/b.pdf", .bool true, none⟩ := by
  decide

end OpeningDetails

/-! ## Preview -/

namespace OpeningDetails

theorem lookup_unmentioned (key : String) :
    ∀ fields : List (String × JSVal), JSVal.mentionsFields key fields = false →
      JSVal.lookup fields key = .undefined ∧
      ∀ k, (JSVal.lookup fields k).mentions key = false := by
  intro fields
  induction fields with
  | nil => intro _; exact ⟨rfl, fun _ => rfl⟩
  | cons entry rest ih =>
    obtain ⟨k0, v0⟩ := entry
    intro h
    simp only [JSVal.mentionsFields, Bool.or_eq_false_iff, beq_eq_false_iff_ne, ne_eq] at h
    obtain ⟨⟨hk, hv⟩, hrest⟩ := h
    obtain ⟨ih1, ih2⟩ := ih hrest
    refine ⟨by simp [JSVal.lookup, hk, ih1], fun k => ?_⟩
    by_cases hkk : k0 = k
    · simp [JSVal.lookup, hkk, hv]
    · simp [JSVal.lookup, hkk, ih2 k]

theorem getOpt_unmentioned (key : String) (v : JSVal) (h : v.mentions key = false) :
    v.getOpt key = .undefined ∧ ∀ k, (v.getOpt k).mentions key = false := by
  cases v with
  | obj address fields =>
    have hf : JSVal.mentionsFields key fields = false := by simpa [JSVal.mentions] using h
    obtain ⟨h1, h2⟩ := lookup_unmentioned key fields hf
    exact ⟨by simp [JSVal.getOpt, JSVal.isNullish, JSVal.field, h1],
      fun k => by simp [JSVal.getOpt, JSVal.isNullish, JSVal.field, h2 k]⟩
  | undefined => exact ⟨rfl, fun _ => rfl⟩
  | null => exact ⟨rfl, fun _ => rfl⟩
  | bool b => exact ⟨rfl, fun _ => rfl⟩
  | num n => exact ⟨rfl, fun _ => rfl⟩
  | str t => exact ⟨rfl, fun _ => rfl⟩
  | arr address items => exact ⟨rfl, fun _ => rfl⟩

theorem or_unmentioned (key : String) (a b : JSVal) (ha : a.mentions key = false)
    (hb : b.mentions key = false) : (a.or b).mentions key = false := by
  unfold JSVal.or
  split <;> assumption

theorem first_unmentioned (key : String) (items : List JSVal)
    (h : JSVal.mentionsItems key items = false) : (JSVal.first items).mentions key = false := by
  cases items with
  | nil => rfl
  | cons x rest =>
    simp only [JSVal.mentionsItems, Bool.or_eq_false_iff] at h
    exact h.1

/-- A decoded body that nowhere holds a property named `viewUrl` yields no preview
URL. -/
theorem viewUrlOf_unmentioned (parsed : Parsed)
    (h : parsed.data.mentions "viewUrl" = false) : viewUrlOf parsed = .undefined := by
  have h1 := (getOpt_unmentioned "viewUrl" parsed.data h).2 "data"
  have h2 := (getOpt_unmentioned "viewUrl" _ h1).2 "profiles"
  have h3 := or_unmentioned "viewUrl" _ _ (or_unmentioned "viewUrl" _ _ h2 h1) h
  unfold viewUrlOf
  dsimp only
  generalize (((parsed.data.getOpt "data").getOpt "profiles").or
    (parsed.data.getOpt "data")).or parsed.data = profiles at h3
  cases profiles with
  | arr address items =>
    exact (getOpt_unmentioned "viewUrl" _
      (first_unmentioned "viewUrl" items (by simpa [JSVal.mentions] using h3))).1
  | obj address fields => exact (getOpt_unmentioned "viewUrl" _ h3).1
  | undefined => rfl
  | null => rfl
  | bool b => rfl
  | num n => rfl
  | str t => rfl

/-- C11: for every profile file whose `s3Key` is falsy (in particular `null` or
missing), `handleView` issues no request, opens no browsing context and reports
that the preview is not available.  For a file with an `s3Key`, when the response
is successful and the value the handler reads as `viewUrl` is falsy (which is the
case whenever the decoded body holds no `viewUrl` property at all), exactly the
view request has been issued, no browsing context is opened and an error is
reported. -/
theorem handleView_without_url (env : Env) (id : JSVal) (net : FetchResult)
    (st : ViewState) (file : Profile) :
    (file.s3Key.truthy = false →
      (handleView env id net st file).requests = [] ∧
      (handleView env id net st file).windows = [] ∧
      (handleView env id net st file).toasts =
        ["Preview not available (missing s3Key)."]) ∧
    (file.s3Key.truthy = true →
      ∀ res, net = .ok res → res.ok = true →
        ((viewUrlOf (parseResponse env res)).truthy = false ∨
          (parseResponse env res).data.mentions "viewUrl" = false) →
        (handleView env id net st file).requests = [viewRequest env id file] ∧
        (handleView env id net st file).windows = [] ∧
        (handleView env id net st file).toasts =
          ["Preview URL not returned by server."]) := by
  constructor
  · intro hkey
    simp [handleView, hkey]
  · intro hkey res hnet hok hno
    have hurl : (viewUrlOf (parseResponse env res)).truthy = false := by
      rcases hno with h | h
      · exact h
      · rw [viewUrlOf_unmentioned _ h]
        rfl
    subst hnet
    simp [handleView, hkey, view_parse_ok, hok, hurl]

/-- Witness of C11: a file without `s3Key`, and a file with one whose successful
response is the empty object. -/
theorem handleView_without_url_witness :
    (handleView ⟨"", tableDecoder []⟩ (.str "42") (.error "unused")
        ⟨.null, false, false, [], .str "PENDING", none, false, false⟩
        ⟨.num "7", .str "cv.pdf", .null, .bool false, none⟩).requests = [] ∧
    (handleView ⟨"", tableDecoder [("\x7b\x7d", .obj 1 [])]⟩ (.str "42")
        (.ok ⟨true, 200, "\x7b\x7d"⟩)
        ⟨.null, false, false, [], .str "PENDING", none, false, false⟩
        ⟨.num "7", .str "cv.pdf", .str "k/cv.pdf", .bool false, none⟩).windows = [] :=
  ⟨((handleView_without_url ⟨"", tableDecoder []⟩ (.str "42") (.error "unused")
        ⟨.null, false, false, [], .str "PENDING", none, false, false⟩
        ⟨.num "7", .str "cv.pdf", .null, .bool false, none⟩).1 rfl).1,
   ((handleView_without_url ⟨"", tableDecoder [("\x7b\x7d", .obj 1 [])]⟩ (.str "42")
        (.ok ⟨true, 200, "\x7b\x7d"⟩)
        ⟨.null, false, false, [], .str "PENDING", none, false, false⟩
        ⟨.num "7", .str "cv.pdf", .str "k/cv.pdf", .bool false, none⟩).2 rfl
        ⟨true, 200, "\x7b\x7d"⟩ rfl rfl (Or.inr (by decide))).2.1⟩

end OpeningDetails

/-! ## Pagination of the openings list -/

namespace OpeningsLayout

theorem strictEq_finite (a : JSNumber) (q : Rat) :
    (a.strictEq (.finite q) = true ↔ a = .finite q) := by
  cases a <;> simp [JSNumber.strictEq]

/-- C12 (amended): the Back and Prev buttons are disabled exactly when `currentPage`
is 1, the Next button exactly when `currentPage` is `===` to `totalPages` or
`totalPages` is 0; and for every pagination whose `currentPage` and `totalPages`
are integers with `1 ≤ currentPage ≤ totalPages`, a click on any of the buttons
that is not disabled requests a page within `[1, totalPages]`.  Of the rounding of
the engine the second part uses only that a real lying between two numbers is
rounded to a number between them, and that 1 and `totalPages` are numbers. -/
theorem pagination_buttons (toNumber : Rat → JSNumber) (p : Pagination) :
    (∃ back prev next, paginationButtons toNumber p = [back, prev, next] ∧
      back.label = "Go Back" ∧ prev.label = "Prev" ∧ next.label = "Next" ∧
      (back.disabled = true ↔ p.currentPage = .finite 1) ∧
      (prev.disabled = true ↔ p.currentPage = .finite 1) ∧
      (next.disabled = true ↔
        (p.currentPage.strictEq p.totalPages = true ∨ p.totalPages = .finite 0)) ∧
      back.page = .finite 1 ∧
      prev.page = p.currentPage.sub toNumber (.finite 1) ∧
      next.page = p.currentPage.add toNumber (.finite 1)) ∧
    (∀ current total : Int,
      p.currentPage = .finite current → p.totalPages = .finite total →
      1 ≤ current → current ≤ total →
      toNumber 1 = .finite 1 → toNumber total = .finite total →
      (∀ lo hi q : Rat, toNumber lo = .finite lo → toNumber hi = .finite hi →
        lo ≤ q → q ≤ hi → ∃ r, toNumber q = .finite r ∧ lo ≤ r ∧ r ≤ hi) →
      ∀ button ∈ controls toNumber (some p), ∀ page, click button = some page →
        ∃ r : Rat, page = .finite r ∧ 1 ≤ r ∧ r ≤ total) := by
  constructor
  · refine ⟨_, _, _, rfl, rfl, rfl, rfl, strictEq_finite _ _, strictEq_finite _ _, ?_,
      rfl, rfl, rfl⟩
    simp only [Bool.or_eq_true, strictEq_finite]
  · intro current total hcur htot hlo hhi hone htotal hround button hmem page hclick
    have hlo' : (1 : Rat) ≤ current := by exact_mod_cast hlo
    have hhi' : (current : Rat) ≤ total := by exact_mod_cast hhi
    simp only [controls, paginationButtons, List.mem_cons, List.mem_singleton,
      List.not_mem_nil, or_false] at hmem
    rcases hmem with rfl | rfl | rfl
    · simp only [click] at hclick
      split at hclick
      · exact absurd hclick (by simp)
      · simp only [Option.some.injEq] at hclick
        exact ⟨1, hclick.symm, le_refl _, le_trans hlo' hhi'⟩
    · simp only [click] at hclick
      split at hclick
      · exact absurd hclick (by simp)
      · rename_i hdis
        simp only [Option.some.injEq] at hclick
        rw [hcur] at hdis hclick
        have hne : current ≠ 1 := by
          intro h
          apply hdis
          simp [JSNumber.strictEq, h]
        have h2 : (2 : Int) ≤ current := by omega
        have h2' : (2 : Rat) ≤ current := by exact_mod_cast h2
        obtain ⟨r, hr, hr1, hr2⟩ := hround 1 total ((current : Rat) - 1) hone htotal
          (by linarith) (by linarith)
        exact ⟨r, by rw [← hclick]; simpa [JSNumber.sub] using hr, hr1, hr2⟩
    · simp only [click] at hclick
      split at hclick
      · exact absurd hclick (by simp)
      · rename_i hdis
        simp only [Option.some.injEq] at hclick
        rw [hcur, htot] at hdis
        rw [hcur] at hclick
        have hne : current ≠ total := by
          intro h
          apply hdis
          simp [JSNumber.strictEq, h]
        have h2 : current + 1 ≤ total := by omega
        have h2' : (current : Rat) + 1 ≤ total := by exact_mod_cast h2
        obtain ⟨r, hr, hr1, hr2⟩ := hround 1 total ((current : Rat) + 1) hone htotal
          (by linarith) h2'
        exact ⟨r, by rw [← hclick]; simpa [JSNumber.add] using hr, hr1, hr2⟩

/-- Witness of C12: page 2 of 3; every enabled button requests a page from 1 to 3. -/
theorem pagination_buttons_witness :
    ∀ button ∈ controls exactNumber
        (some ⟨.finite 2, .finite 10, .finite 25, .finite 3⟩),
      ∀ page, click button = some page →
        ∃ r : Rat, page = .finite r ∧ 1 ≤ r ∧ r ≤ ((3 : Int) : Rat) :=
  (pagination_buttons exactNumber ⟨.finite 2, .finite 10, .finite 25, .finite 3⟩).2
    2 3 (by norm_num) (by norm_num) (by decide) (by decide)
    (by simp [exactNumber]) (by simp [exactNumber])
    (fun lo hi q _ _ h1 h2 => ⟨q, rfl, h1, h2⟩)

/-- C12 as stated fails for a page that is not an integer: with `currentPage` 1.5 and
`totalPages` 2, so that `1 ≤ currentPage ≤ totalPages`, no button is disabled; Prev
requests page 0.5, below 1, and Next requests page 2.5, above `totalPages`. -/
theorem fractional_page_leaves_range :
    (1 : Rat) ≤ 3 / 2 ∧ (3 / 2 : Rat) ≤ 2 ∧
    (paginationButtons exactNumber
        ⟨.finite (3 / 2), .finite 10, .finite 15, .finite 2⟩).map click =
      [some (.finite 1), some (.finite (1 / 2)), some (.finite (5 / 2))] ∧
    (1 / 2 : Rat) < 1 ∧ (2 : Rat) < 5 / 2 := by
  refine ⟨by norm_num, by norm_num, ?_, by norm_num, by norm_num⟩
  simp only [paginationButtons, List.map, click, JSNumber.strictEq, JSNumber.sub,
    JSNumber.add, exactNumber]
  norm_num

end OpeningsLayout

/-! ## Failed fetch of the opening -/

namespace OpeningDetails

theorem strOr_ne_empty (a b : String) (hb : b ≠ "") : strOr a b ≠ "" := by
  unfold strOr
  split <;> assumption

theorem strOr_strOr (a b c : String) (hb : b ≠ "") : strOr (strOr a b) c = strOr a b := by
  have h := strOr_ne_empty a b hb
  generalize strOr a b = t at h
  simp [strOr, h]

/-- C13: when the fetch of the opening is made (the route `id` is truthy) and
returns a response that is not ok, the error message surfaced, by
`fetchOpeningOnce` in the `error` state and by `fetchOpeningFull` as a toast, is
the raw body text when that is not empty and `"Failed to fetch"` otherwise; the
opening and the local profile list are as they were before the fetch. -/
theorem fetch_non_success (env : Env) (id : JSVal) (net : FetchResult) (st : ViewState)
    (res : Response) (hid : id.truthy = true) (hnet : net = .ok res)
    (hok : res.ok = false) :
    (fetchOpeningOnce env id net st).requests = [openingRequest env id] ∧
    (fetchOpeningOnce env id net st).state.error =
      some (if res.body = "" then "Failed to fetch" else res.body) ∧
    (fetchOpeningOnce env id net st).state.opening = st.opening ∧
    (fetchOpeningOnce env id net st).state.uploadedFiles = st.uploadedFiles ∧
    (fetchOpeningFull env id net st).requests = [openingRequest env id] ∧
    (fetchOpeningFull env id net st).toasts =
      [if res.body = "" then "Failed to fetch" else res.body] ∧
    (fetchOpeningFull env id net st).state.opening = st.opening ∧
    (fetchOpeningFull env id net st).state.uploadedFiles = st.uploadedFiles := by
  subst hnet
  have hparsed : (parseResponse env res).ok = false := by rw [view_parse_ok, hok]
  have htext : (parseResponse env res).text = res.body := by
    unfold parseResponse
    dsimp only
    split <;> rfl
  have happly : ∀ st0 : ViewState, applyOpeningResponse env (.ok res) st0 =
      (st0, some (.error (strOr res.body "Failed to fetch"))) := by
    intro st0
    simp [applyOpeningResponse, hparsed, htext]
  have hmsg : ∀ fallback : String, strOr (strOr res.body "Failed to fetch") fallback =
      (if res.body = "" then "Failed to fetch" else res.body) := by
    intro fallback
    rw [strOr_strOr _ _ _ (by decide : ("Failed to fetch" : String) ≠ "")]
    rfl
  unfold fetchOpeningOnce fetchOpeningFull
  simp only [hid, Bool.not_true, Bool.false_eq_true, if_false, happly, Thrown.message, hmsg]
  simp

/-- Witness of C13: a 404 with a text body. -/
theorem fetch_non_success_witness :
    (fetchOpeningFull ⟨"", tableDecoder []⟩ (.str "42") (.ok ⟨false, 404, "Not found"⟩)
        ⟨.null, false, false, [], .str "PENDING", none, false, true⟩).toasts =
      [if "Not found" = "" then "Failed to fetch" else "Not found"] :=
  (fetch_non_success ⟨"", tableDecoder []⟩ (.str "42") (.ok ⟨false, 404, "Not found"⟩)
    ⟨.null, false, false, [], .str "PENDING", none, false, true⟩
    ⟨false, 404, "Not found"⟩ rfl rfl rfl).2.2.2.2.2.1

end OpeningDetails

/-! ## The upload modal and the ref `hasUploadModalOpened` -/

namespace OpeningDetails

theorem applyOpeningResponse_flags (env : Env) (net : FetchResult) (st : ViewState) :
    (applyOpeningResponse env net st).1.isUploadOpen = st.isUploadOpen ∧
    (applyOpeningResponse env net st).1.hasUploadModalOpened = st.hasUploadModalOpened := by
  unfold applyOpeningResponse
  cases net with
  | error m => exact ⟨rfl, rfl⟩
  | ok res =>
    dsimp only
    split
    · exact ⟨rfl, rfl⟩
    · split
      · exact ⟨rfl, rfl⟩
      · split <;> exact ⟨rfl, rfl⟩

theorem fetchOpeningOnce_flags (env : Env) (id : JSVal) (net : FetchResult)
    (st : ViewState) :
    (fetchOpeningOnce env id net st).state.isUploadOpen = st.isUploadOpen ∧
    (fetchOpeningOnce env id net st).state.hasUploadModalOpened =
      st.hasUploadModalOpened := by
  unfold fetchOpeningOnce
  split
  · exact ⟨rfl, rfl⟩
  · have h := applyOpeningResponse_flags env net { st with loading := true, error := none }
    dsimp only
    split <;> rename_i st2 _ heq <;> rw [heq] at h <;> exact h

theorem fetchOpeningFull_flags (env : Env) (id : JSVal) (net : FetchResult)
    (st : ViewState) :
    (fetchOpeningFull env id net st).state.isUploadOpen = st.isUploadOpen ∧
    (fetchOpeningFull env id net st).state.hasUploadModalOpened =
      st.hasUploadModalOpened := by
  unfold fetchOpeningFull
  split
  · exact ⟨rfl, rfl⟩
  · have h := applyOpeningResponse_flags env net { st with loading := true, error := none }
    dsimp only
    split <;> rename_i st2 _ heq <;> rw [heq] at h <;> exact h

theorem handleUploaded_flags (env : Env) (id : JSVal) (net : FetchResult)
    (st : ViewState) (newProfiles : List Profile) :
    (handleUploaded env id net st newProfiles).state.isUploadOpen = st.isUploadOpen ∧
    (handleUploaded env id net st newProfiles).state.hasUploadModalOpened =
      st.hasUploadModalOpened := by
  unfold handleUploaded
  split
  · exact fetchOpeningFull_flags env id net st
  · exact ⟨rfl, rfl⟩

theorem handleDelete_flags (env : Env) (id : JSVal) (net : FetchResult)
    (st : ViewState) (file : Profile) :
    (handleDelete env id net st file).state.isUploadOpen = st.isUploadOpen ∧
    (handleDelete env id net st file).state.hasUploadModalOpened =
      st.hasUploadModalOpened := by
  unfold handleDelete
  split
  · exact ⟨rfl, rfl⟩
  · split
    · cases net with
      | error m => exact ⟨rfl, rfl⟩
      | ok res =>
        dsimp only
        split <;> exact ⟨rfl, rfl⟩
    · exact ⟨rfl, rfl⟩

theorem handleView_state (env : Env) (id : JSVal) (net : FetchResult)
    (st : ViewState) (file : Profile) : (handleView env id net st file).state = st := by
  unfold handleView
  split
  · rfl
  · cases net with
    | error m => rfl
    | ok res =>
      dsimp only
      split
      · rfl
      · split <;> rfl

theorem handleSubmit_flags (env : Env) (id : JSVal) (net : FetchResult)
    (st : ViewState) (file : Option Profile) :
    (handleSubmit env id net st file).state.isUploadOpen = st.isUploadOpen ∧
    (handleSubmit env id net st file).state.hasUploadModalOpened =
      st.hasUploadModalOpened := by
  unfold handleSubmit
  cases file with
  | none => exact ⟨rfl, rfl⟩
  | some f =>
    dsimp only
    split
    · exact ⟨rfl, rfl⟩
    · split <;> exact ⟨rfl, rfl⟩

/-- One step keeps the ref once it is set, and keeps the two facts that an open
modal and a pending upload both imply the ref. -/
theorem step_keeps (env : Env) (event : Event) (s next : Session)
    (hstep : step env event s = some next) :
    (s.view.hasUploadModalOpened = true → next.view.hasUploadModalOpened = true) ∧
    (((s.view.isUploadOpen = true → s.view.hasUploadModalOpened = true) ∧
      (0 < s.uploadsInFlight → s.view.hasUploadModalOpened = true)) →
     ((next.view.isUploadOpen = true → next.view.hasUploadModalOpened = true) ∧
      (0 < next.uploadsInFlight → next.view.hasUploadModalOpened = true))) := by
  cases event with
  | fetchOnce id net =>
    simp only [step, Option.some.injEq] at hstep
    subst hstep
    obtain ⟨h1, h2⟩ := fetchOpeningOnce_flags env id net s.view
    simp only [h1, h2]
    exact ⟨fun h => h, fun h => h⟩
  | clickUpload =>
    simp only [step, Option.some.injEq] at hstep
    subst hstep
    exact ⟨fun _ => rfl, fun _ => ⟨fun _ => rfl, fun _ => rfl⟩⟩
  | closeModal =>
    simp only [step, Option.some.injEq] at hstep
    subst hstep
    refine ⟨fun h => h, fun h => ⟨fun hopen => ?_, fun hpos => h.2 hpos⟩⟩
    exact absurd hopen (by simp)
  | startUpload =>
    simp only [step] at hstep
    split at hstep
    · rename_i hopen
      simp only [Option.some.injEq] at hstep
      subst hstep
      exact ⟨fun h => h, fun h => ⟨h.1, fun _ => h.1 hopen⟩⟩
    · exact absurd hstep (by simp)
  | uploadSucceeded id net newProfiles =>
    simp only [step] at hstep
    split at hstep
    · rename_i hpos
      simp only [Option.some.injEq] at hstep
      subst hstep
      obtain ⟨h1, h2⟩ := handleUploaded_flags env id net s.view newProfiles
      simp only [h1, h2]
      exact ⟨fun h => h, fun h => ⟨h.1, fun _ => h.2 hpos⟩⟩
    · exact absurd hstep (by simp)
  | uploadFailed =>
    simp only [step] at hstep
    split at hstep
    · rename_i hpos
      simp only [Option.some.injEq] at hstep
      subst hstep
      exact ⟨fun h => h, fun h => ⟨h.1, fun _ => h.2 hpos⟩⟩
    · exact absurd hstep (by simp)
  | delete id net file =>
    simp only [step, Option.some.injEq] at hstep
    subst hstep
    obtain ⟨h1, h2⟩ := handleDelete_flags env id net s.view file
    simp only [h1, h2]
    exact ⟨fun h => h, fun h => h⟩
  | preview id net file =>
    simp only [step, Option.some.injEq] at hstep
    subst hstep
    simp only [handleView_state]
    exact ⟨fun h => h, fun h => h⟩
  | submit id net file =>
    simp only [step, Option.some.injEq] at hstep
    subst hstep
    obtain ⟨h1, h2⟩ := handleSubmit_flags env id net s.view file
    simp only [h1, h2]
    exact ⟨fun h => h, fun h => h⟩

theorem run_keeps (env : Env) :
    ∀ (events : List Event) (s final : Session), run env events s = some final →
      (s.view.hasUploadModalOpened = true → final.view.hasUploadModalOpened = true) ∧
      (((s.view.isUploadOpen = true → s.view.hasUploadModalOpened = true) ∧
        (0 < s.uploadsInFlight → s.view.hasUploadModalOpened = true)) →
       ((final.view.isUploadOpen = true → final.view.hasUploadModalOpened = true) ∧
        (0 < final.uploadsInFlight → final.view.hasUploadModalOpened = true))) := by
  intro events
  induction events with
  | nil =>
    intro s final hrun
    simp only [run, Option.some.injEq] at hrun
    subst hrun
    exact ⟨fun h => h, fun h => h⟩
  | cons event rest ih =>
    intro s final hrun
    simp only [run] at hrun
    cases hstep : step env event s with
    | none => simp [hstep] at hrun
    | some next =>
      simp only [hstep] at hrun
      obtain ⟨k1, k2⟩ := step_keeps env event s next hstep
      obtain ⟨r1, r2⟩ := ih next final hrun
      exact ⟨fun h => r1 (k1 h), fun h => r2 (k2 h)⟩

/-- C14: in every state the detail view reaches from its mount, if the upload modal
is mounted (`isUploadOpen` is true) then `hasUploadModalOpened` is true, and so it
is while an upload started by the modal is pending; once true, the ref stays true
along every further sequence of events.  Consequently every `handleUploaded` call
made by the modal runs `fetchOpeningFull`: the invocation leaves the state that the
re-fetch leaves, and the local-append branch is not taken. -/
theorem modal_implies_opened (env : Env) (events : List Event) (s : Session)
    (hreach : run env events initialSession = some s) :
    (s.view.isUploadOpen = true → s.view.hasUploadModalOpened = true) ∧
    (0 < s.uploadsInFlight → s.view.hasUploadModalOpened = true) ∧
    (∀ (more : List Event) (later : Session), run env more s = some later →
      s.view.hasUploadModalOpened = true → later.view.hasUploadModalOpened = true) ∧
    (∀ (id : JSVal) (net : FetchResult) (newProfiles : List Profile) (next : Session),
      step env (.uploadSucceeded id net newProfiles) s = some next →
      s.view.hasUploadModalOpened = true ∧
      handleUploaded env id net s.view newProfiles = fetchOpeningFull env id net s.view ∧
      next.view = (fetchOpeningFull env id net s.view).state) := by
  have hinv := (run_keeps env events initialSession s hreach).2
    ⟨fun h => absurd h (by decide), fun h => absurd h (by decide)⟩
  refine ⟨hinv.1, hinv.2, fun more later hrun => (run_keeps env more s later hrun).1, ?_⟩
  intro id net newProfiles next hstep
  simp only [step] at hstep
  split at hstep
  · rename_i hpos
    have hopened := hinv.2 hpos
    have hcall : handleUploaded env id net s.view newProfiles =
        fetchOpeningFull env id net s.view := by
      simp [handleUploaded, hopened]
    simp only [Option.some.injEq] at hstep
    subst hstep
    exact ⟨hopened, hcall, by rw [hcall]⟩
  · exact absurd hstep (by simp)

/-- Witness of C14: the view is mounted, the upload button is clicked and the modal
starts an upload; the ref is set in the state reached. -/
theorem modal_implies_opened_witness :
    run ⟨"", tableDecoder []⟩ [.clickUpload, .startUpload] initialSession =
      some ⟨⟨.null, true, true, [], .str "PENDING", none, false, true⟩, 1⟩ ∧
    (⟨⟨.null, true, true, [], .str "PENDING", none, false, true⟩, 1⟩ :
      Session).view.hasUploadModalOpened = true :=
  ⟨rfl,
   (modal_implies_opened ⟨"", tableDecoder []⟩ [.clickUpload, .startUpload]
      ⟨⟨.null, true, true, [], .str "PENDING", none, false, true⟩, 1⟩ rfl).2.1
      (by decide)⟩

end OpeningDetails

end Zelosify
